import Mathlib

/-!
Verification of the `dupl-server-proto` wire protocol library.

The development shallowly embeds the message model (`Trans`, `Req`, `Workload`,
`LookupTask`, `PostAction`, `InsertCond`, `ClusterAssign`, `AssignCond`,
`ClusterChoice`, `Rep`, `LookupResult`, `Match`) together with its two codecs:

* the binary codec of `src/bin.rs` (`ToBin::encode_len`, `ToBin::encode`,
  `FromBin::decode`), modelled as pure functions from values to byte lists and
  from byte lists to `Except`-wrapped value/remainder pairs;
* the structured-text codec of `src/json.rs` (`ToJson::to_json`,
  `FromJson::from_json`), modelled over an embedding of the
  `rustc_serialize::json::Json` tree.

Machine integers are modelled as naturals: `u64` and the IEEE-754 bit pattern
of `f64` as subtypes of `Nat` bounded by `2 ^ 64` (the `byteorder`
`read_f64`/`write_f64` pair is a bit-preserving transmute, so a float field is
faithfully represented by its bits).  Buffers are lists of naturals; a real
buffer holds values below 256.  The generic user-data parameter `UD` is
handled by explicit dictionary passing, mirroring the Rust trait bounds.

The `bin.rs` and `json.rs` sources use `NativeEndian`, which resolves to the
host's byte order; the codec is therefore parameterized by an `Endian`
argument throughout.
-/

namespace DuplProto

/-- A byte buffer is a list of naturals; a real buffer holds values below 256. -/
abbrev Bytes := List Nat

/-! ## UTF-8 validity (mirror of `str::from_utf8`) -/

/-- UTF-8 continuation byte test (`0x80 ..= 0xBF`). -/
def isCont (b : Nat) : Bool := 0x80 ≤ b && b ≤ 0xBF

/-- Allowed range of the first continuation byte after a three-byte lead. -/
def lead3Follow (b c1 : Nat) : Bool :=
  if b = 0xE0 then 0xA0 ≤ c1 && c1 ≤ 0xBF
  else if b = 0xED then 0x80 ≤ c1 && c1 ≤ 0x9F
  else isCont c1

/-- Allowed range of the first continuation byte after a four-byte lead. -/
def lead4Follow (b c1 : Nat) : Bool :=
  if b = 0xF0 then 0x90 ≤ c1 && c1 ≤ 0xBF
  else if b = 0xF4 then 0x80 ≤ c1 && c1 ≤ 0x8F
  else isCont c1

/-- UTF-8 validity of a byte sequence, following `str::from_utf8`'s table. -/
def utf8Valid : Bytes → Bool
  | [] => true
  | b :: rest =>
    if b ≤ 0x7F then utf8Valid rest
    else if b < 0xC2 then false
    else if b ≤ 0xDF then
      match rest with
      | c1 :: r => isCont c1 && utf8Valid r
      | [] => false
    else if b ≤ 0xEF then
      match rest with
      | c1 :: c2 :: r => lead3Follow b c1 && isCont c2 && utf8Valid r
      | _ => false
    else if b ≤ 0xF4 then
      match rest with
      | c1 :: c2 :: c3 :: r => lead4Follow b c1 && isCont c2 && isCont c3 && utf8Valid r
      | _ => false
    else false

/-- Rust `String`: its UTF-8 byte buffer together with the validity invariant. -/
def PStr := {l : Bytes // utf8Valid l = true}

instance : DecidableEq PStr := Subtype.instDecidableEq

/-! ## Fixed-width integer reads and writes

`bin.rs` reads and writes multi-byte fields through
`byteorder::NativeEndian`, which resolves to the byte order of the host the
code happens to run on.  The embedding makes that hidden parameter explicit:
every encoder and decoder takes an `Endian` argument. -/

/-- Byte order selector: `NativeEndian` resolves to one of these per host. -/
inductive Endian | little | big
deriving DecidableEq

/-- Little-endian byte decomposition of `x` into `w` bytes, least significant first. -/
def leBytes : Nat → Nat → Bytes
  | 0, _ => []
  | w + 1, x => x % 256 :: leBytes w (x / 256)

/-- Recompose a little-endian byte list into a natural number. -/
def fromLE : Bytes → Nat
  | [] => 0
  | b :: r => b + 256 * fromLE r

/-- `put_adv!` for a `w`-byte integer: emit the bytes of `x` in order `e`. -/
def putBytes (e : Endian) (w x : Nat) : Bytes :=
  match e with
  | .little => leBytes w x
  | .big => (leBytes w x).reverse

/-- Binary decode errors of `bin.rs` (`Error`).  The `Io` and `ByteOrder`
variants of the source enum are unreachable when decoding from an in-memory
slice and carry unmodellable payloads, so only the slice-reachable variants
appear. -/
inductive BinError
  | UnexpectedEOF
  | InvalidTag (tag : Nat)
  | Utf8
deriving DecidableEq

/-- Result of a binary decode step: the value and the unconsumed suffix. -/
abbrev DecRes (α : Type) := Except BinError (α × Bytes)

/-- `try_get!` for a `w`-byte integer: fail with `UnexpectedEOF` if fewer than
`w` bytes remain, otherwise recompose the first `w` bytes in order `e`.  The
final reduction modulo `2 ^ (8 * w)` records that the recomposition of `w`
real bytes (each below 256) is below `2 ^ (8 * w)`. -/
def getW (e : Endian) (w : Nat) (l : Bytes) : Except BinError (Nat × Bytes) :=
  if l.length < w then .error .UnexpectedEOF
  else
    .ok ((match e with
      | .little => fromLE (l.take w)
      | .big => fromLE (l.take w).reverse) % 2 ^ (8 * w), l.drop w)

/-! ## The message model

`lib.rs` in this snapshot is a stale copy that predates `Trans`,
`AssignCond` and `ClusterChoice` and still has the old enum `ClusterAssign`;
the definitive shapes are the ones used by `bin.rs` and `json.rs` (and listed
in the spec's data-model table), which the following declarations mirror. -/

/-- `u64` values. -/
def U64 := {n : Nat // n < 2 ^ 64}

instance : DecidableEq U64 := Subtype.instDecidableEq

/-- `f64` values, represented by their IEEE-754 bit pattern. -/
def F64 := {n : Nat // n < 2 ^ 64}

instance : DecidableEq F64 := Subtype.instDecidableEq

inductive Workload (T : Type)
  | Single (value : T)
  | Many (values : List T)
deriving DecidableEq

inductive LookupType
  | All
  | Best
  | BestOrMine
deriving DecidableEq

inductive InsertCond
  | Always
  | BestSimLessThan (sim : F64)
deriving DecidableEq

inductive AssignCond
  | Always
  | BestSimLessThan (sim : F64)
deriving DecidableEq

inductive ClusterChoice
  | ServerChoice
  | ClientChoice (cluster_id : U64)
deriving DecidableEq

structure ClusterAssign where
  cond : AssignCond
  choice : ClusterChoice
deriving DecidableEq

inductive PostAction (UD : Type)
  | None
  | InsertNew (cond : InsertCond) (assign : ClusterAssign) (user_data : UD)
deriving DecidableEq

structure LookupTask (UD : Type) where
  text : PStr
  result : LookupType
  post_action : PostAction UD
deriving DecidableEq

inductive Req (UD : Type)
  | Init
  | Lookup (workload : Workload (LookupTask UD))
  | Terminate
deriving DecidableEq

inductive Trans (UD : Type)
  | Async (req : Req UD)
  | Sync (req : Req UD)
deriving DecidableEq

structure Match (UD : Type) where
  cluster_id : U64
  similarity : F64
  user_data : UD
deriving DecidableEq

inductive LookupResult (UD : Type)
  | EmptySet
  | Best (m : Match UD)
  | Neighbours (neighbours : Workload (Match UD))
  | Error (message : PStr)
deriving DecidableEq

inductive Rep (UD : Type)
  | InitAck
  | Result (workload : Workload (LookupResult UD))
  | TerminateAck
  | Unexpected (req : Req UD)
  | TooBusy
  | WantCrash
deriving DecidableEq

/-! ## Binary codec (`src/bin.rs`)

For each model type the three trait methods are embedded:
`encode_len` (`ToBin::encode_len`), `encode` (`ToBin::encode`, returning the
bytes written instead of mutating a caller buffer) and `decode`
(`FromBin::decode`).  Generic impls become functions taking the `UD` (or
element) methods as explicit arguments, mirroring Rust's dictionary-passing
of trait bounds. -/

/-- `impl ToBin for String`: 4-byte length prefix plus the raw bytes. -/
def PStr.encode_len (s : PStr) : Nat := 4 + s.val.length

/-- `ToBin::encode` for `String`: `put_str_adv!` writes `len as u32`, then the bytes. -/
def PStr.encode (e : Endian) (s : PStr) : Bytes :=
  putBytes e 4 s.val.length ++ s.val

/-- `FromBin::decode` for `String` (`try_get_str!`): read a 4-byte length,
fail with `UnexpectedEOF` when fewer bytes remain, validate UTF-8. -/
def PStr.decode (e : Endian) (l : Bytes) : DecRes PStr :=
  match getW e 4 l with
  | .error er => .error er
  | .ok (len, buf) =>
    if buf.length < len then .error .UnexpectedEOF
    else
      match h : utf8Valid (buf.take len) with
      | true => .ok (⟨buf.take len, h⟩, buf.drop len)
      | false => .error .Utf8

/-- `impl ToBin for u64` via `impl_bin!`. -/
def U64.encode_len (_ : U64) : Nat := 8

def U64.encode (e : Endian) (x : U64) : Bytes := putBytes e 8 x.val

def U64.decode (e : Endian) (l : Bytes) : DecRes U64 :=
  match getW e 8 l with
  | .error er => .error er
  | .ok (x, area) => .ok (⟨x % 2 ^ 64, Nat.mod_lt _ (by positivity)⟩, area)

/-- `impl ToBin for f64` via `impl_bin!` (bit-pattern preserving). -/
def F64.encode_len (_ : F64) : Nat := 8

def F64.encode (e : Endian) (x : F64) : Bytes := putBytes e 8 x.val

def F64.decode (e : Endian) (l : Bytes) : DecRes F64 :=
  match getW e 8 l with
  | .error er => .error er
  | .ok (x, area) => .ok (⟨x % 2 ^ 64, Nat.mod_lt _ (by positivity)⟩, area)

/-- `impl ToBin for LookupType`: a bare tag byte. -/
def LookupType.encode_len (_ : LookupType) : Nat := 1

def LookupType.encode : LookupType → Bytes
  | .All => [1]
  | .Best => [2]
  | .BestOrMine => [3]

def LookupType.decode (l : Bytes) : DecRes LookupType :=
  match l with
  | [] => .error .UnexpectedEOF
  | tag :: area =>
    if tag = 1 then .ok (.All, area)
    else if tag = 2 then .ok (.Best, area)
    else if tag = 3 then .ok (.BestOrMine, area)
    else .error (.InvalidTag tag)

/-- `impl ToBin for InsertCond`. -/
def InsertCond.encode_len : InsertCond → Nat
  | .Always => 1
  | .BestSimLessThan _ => 1 + 8

def InsertCond.encode (e : Endian) : InsertCond → Bytes
  | .Always => [1]
  | .BestSimLessThan sim => 2 :: putBytes e 8 sim.val

def InsertCond.decode (e : Endian) (l : Bytes) : DecRes InsertCond :=
  match l with
  | [] => .error .UnexpectedEOF
  | tag :: area =>
    if tag = 1 then .ok (.Always, area)
    else if tag = 2 then
      match F64.decode e area with
      | .ok (sim, area) => .ok (.BestSimLessThan sim, area)
      | .error er => .error er
    else .error (.InvalidTag tag)

/-- `impl ToBin for AssignCond`. -/
def AssignCond.encode_len : AssignCond → Nat
  | .Always => 1
  | .BestSimLessThan _ => 1 + 8

def AssignCond.encode (e : Endian) : AssignCond → Bytes
  | .Always => [1]
  | .BestSimLessThan sim => 2 :: putBytes e 8 sim.val

def AssignCond.decode (e : Endian) (l : Bytes) : DecRes AssignCond :=
  match l with
  | [] => .error .UnexpectedEOF
  | tag :: area =>
    if tag = 1 then .ok (.Always, area)
    else if tag = 2 then
      match F64.decode e area with
      | .ok (sim, area) => .ok (.BestSimLessThan sim, area)
      | .error er => .error er
    else .error (.InvalidTag tag)

/-- `impl ToBin for ClusterChoice`. -/
def ClusterChoice.encode_len : ClusterChoice → Nat
  | .ServerChoice => 1
  | .ClientChoice _ => 1 + 8

def ClusterChoice.encode (e : Endian) : ClusterChoice → Bytes
  | .ServerChoice => [1]
  | .ClientChoice cluster_id => 2 :: putBytes e 8 cluster_id.val

def ClusterChoice.decode (e : Endian) (l : Bytes) : DecRes ClusterChoice :=
  match l with
  | [] => .error .UnexpectedEOF
  | tag :: area =>
    if tag = 1 then .ok (.ServerChoice, area)
    else if tag = 2 then
      match U64.decode e area with
      | .ok (cluster_id, area) => .ok (.ClientChoice cluster_id, area)
      | .error er => .error er
    else .error (.InvalidTag tag)

/-- `impl ToBin for ClusterAssign`: `cond` then `choice`, no tag. -/
def ClusterAssign.encode_len (ca : ClusterAssign) : Nat :=
  ca.cond.encode_len + ca.choice.encode_len

def ClusterAssign.encode (e : Endian) (ca : ClusterAssign) : Bytes :=
  ca.cond.encode e ++ ca.choice.encode e

def ClusterAssign.decode (e : Endian) (l : Bytes) : DecRes ClusterAssign :=
  match AssignCond.decode e l with
  | .error er => .error er
  | .ok (cond, area) =>
    match ClusterChoice.decode e area with
    | .error er => .error er
    | .ok (choice, area) => .ok (⟨cond, choice⟩, area)

/-- `impl ToBin for PostAction<UD>`. -/
def PostAction.encode_len (lenU : UD → Nat) : PostAction UD → Nat
  | .None => 1
  | .InsertNew c a u => 1 + (c.encode_len + a.encode_len + lenU u)

def PostAction.encode (e : Endian) (encU : UD → Bytes) : PostAction UD → Bytes
  | .None => [1]
  | .InsertNew c a u => 2 :: (c.encode e ++ a.encode e ++ encU u)

def PostAction.decode (e : Endian) (decU : Bytes → DecRes UD) (l : Bytes) :
    DecRes (PostAction UD) :=
  match l with
  | [] => .error .UnexpectedEOF
  | tag :: area =>
    if tag = 1 then .ok (.None, area)
    else if tag = 2 then
      match InsertCond.decode e area with
      | .error er => .error er
      | .ok (cond, area) =>
        match ClusterAssign.decode e area with
        | .error er => .error er
        | .ok (assign, area) =>
          match decU area with
          | .error er => .error er
          | .ok (user_data, area) => .ok (.InsertNew cond assign user_data, area)
    else .error (.InvalidTag tag)

/-- `impl ToBin for LookupTask<UD>`: `text`, `result`, `post_action`, no tag. -/
def LookupTask.encode_len (lenU : UD → Nat) (t : LookupTask UD) : Nat :=
  t.text.encode_len + t.result.encode_len + t.post_action.encode_len lenU

def LookupTask.encode (e : Endian) (encU : UD → Bytes) (t : LookupTask UD) : Bytes :=
  t.text.encode e ++ t.result.encode ++ t.post_action.encode e encU

def LookupTask.decode (e : Endian) (decU : Bytes → DecRes UD) (l : Bytes) :
    DecRes (LookupTask UD) :=
  match PStr.decode e l with
  | .error er => .error er
  | .ok (text, area) =>
    match LookupType.decode area with
    | .error er => .error er
    | .ok (result, area) =>
      match PostAction.decode e decU area with
      | .error er => .error er
      | .ok (post_action, area) => .ok (⟨text, result, post_action⟩, area)

/-- `impl ToBin for Workload<T>`: `Many` writes `values.len() as u32`, then
each element; the `fold` mirrors the source's length accumulation. -/
def Workload.encode_len (lenT : T → Nat) : Workload T → Nat
  | .Single value => 1 + lenT value
  | .Many values => 1 + (4 + values.foldl (fun total value => total + lenT value) 0)

def Workload.encode (e : Endian) (encT : T → Bytes) : Workload T → Bytes
  | .Single value => 1 :: encT value
  | .Many values => 2 :: (putBytes e 4 values.length ++ (values.map encT).flatten)

/-- The element loop of `FromBin for Workload<T>` decoding a `Many`. -/
def Workload.decodeMany (decT : Bytes → DecRes T) : Nat → Bytes → DecRes (List T)
  | 0, area => .ok ([], area)
  | n + 1, area =>
    match decT area with
    | .error er => .error er
    | .ok (value, area) =>
      match Workload.decodeMany decT n area with
      | .error er => .error er
      | .ok (values, area) => .ok (value :: values, area)

def Workload.decode (e : Endian) (decT : Bytes → DecRes T) (l : Bytes) :
    DecRes (Workload T) :=
  match l with
  | [] => .error .UnexpectedEOF
  | tag :: area =>
    if tag = 1 then
      match decT area with
      | .error er => .error er
      | .ok (value, area) => .ok (.Single value, area)
    else if tag = 2 then
      match getW e 4 area with
      | .error er => .error er
      | .ok (len, area) =>
        match Workload.decodeMany decT len area with
        | .error er => .error er
        | .ok (values, area) => .ok (.Many values, area)
    else .error (.InvalidTag tag)

/-- `impl ToBin for Req<UD>`. -/
def Req.encode_len (lenU : UD → Nat) : Req UD → Nat
  | .Init | .Terminate => 1
  | .Lookup workload => 1 + workload.encode_len (LookupTask.encode_len lenU)

def Req.encode (e : Endian) (encU : UD → Bytes) : Req UD → Bytes
  | .Init => [1]
  | .Lookup workload => 2 :: workload.encode e (LookupTask.encode e encU)
  | .Terminate => [3]

def Req.decode (e : Endian) (decU : Bytes → DecRes UD) (l : Bytes) : DecRes (Req UD) :=
  match l with
  | [] => .error .UnexpectedEOF
  | tag :: area =>
    if tag = 1 then .ok (.Init, area)
    else if tag = 2 then
      match Workload.decode e (LookupTask.decode e decU) area with
      | .error er => .error er
      | .ok (workload, area) => .ok (.Lookup workload, area)
    else if tag = 3 then .ok (.Terminate, area)
    else .error (.InvalidTag tag)

/-- `impl ToBin for Trans<UD>`. -/
def Trans.encode_len (lenU : UD → Nat) : Trans UD → Nat
  | .Async req | .Sync req => 1 + req.encode_len lenU

def Trans.encode (e : Endian) (encU : UD → Bytes) : Trans UD → Bytes
  | .Async req => 1 :: req.encode e encU
  | .Sync req => 2 :: req.encode e encU

def Trans.decode (e : Endian) (decU : Bytes → DecRes UD) (l : Bytes) : DecRes (Trans UD) :=
  match l with
  | [] => .error .UnexpectedEOF
  | tag :: area =>
    if tag = 1 then
      match Req.decode e decU area with
      | .error er => .error er
      | .ok (req, area) => .ok (.Async req, area)
    else if tag = 2 then
      match Req.decode e decU area with
      | .error er => .error er
      | .ok (req, area) => .ok (.Sync req, area)
    else .error (.InvalidTag tag)

/-- `impl ToBin for Match<UD>`: `cluster_id`, `similarity`, `user_data`, no tag. -/
def Match.encode_len (lenU : UD → Nat) (m : Match UD) : Nat :=
  8 + 8 + lenU m.user_data

def Match.encode (e : Endian) (encU : UD → Bytes) (m : Match UD) : Bytes :=
  putBytes e 8 m.cluster_id.val ++ putBytes e 8 m.similarity.val ++ encU m.user_data

def Match.decode (e : Endian) (decU : Bytes → DecRes UD) (l : Bytes) : DecRes (Match UD) :=
  match getW e 8 l with
  | .error er => .error er
  | .ok (cid, area) =>
    match getW e 8 area with
    | .error er => .error er
    | .ok (sim, area) =>
      match decU area with
      | .error er => .error er
      | .ok (user_data, area) =>
        .ok (⟨⟨cid % 2 ^ 64, Nat.mod_lt _ (by positivity)⟩,
              ⟨sim % 2 ^ 64, Nat.mod_lt _ (by positivity)⟩, user_data⟩, area)

/-- `impl ToBin for LookupResult<UD>`. -/
def LookupResult.encode_len (lenU : UD → Nat) : LookupResult UD → Nat
  | .EmptySet => 1
  | .Best m => 1 + m.encode_len lenU
  | .Neighbours workload => 1 + workload.encode_len (Match.encode_len lenU)
  | .Error er => 1 + er.encode_len

def LookupResult.encode (e : Endian) (encU : UD → Bytes) : LookupResult UD → Bytes
  | .EmptySet => [1]
  | .Best m => 2 :: m.encode e encU
  | .Neighbours workload => 3 :: workload.encode e (Match.encode e encU)
  | .Error er => 4 :: er.encode e

def LookupResult.decode (e : Endian) (decU : Bytes → DecRes UD) (l : Bytes) :
    DecRes (LookupResult UD) :=
  match l with
  | [] => .error .UnexpectedEOF
  | tag :: area =>
    if tag = 1 then .ok (.EmptySet, area)
    else if tag = 2 then
      match Match.decode e decU area with
      | .error er => .error er
      | .ok (m, area) => .ok (.Best m, area)
    else if tag = 3 then
      match Workload.decode e (Match.decode e decU) area with
      | .error er => .error er
      | .ok (workload, area) => .ok (.Neighbours workload, area)
    else if tag = 4 then
      match PStr.decode e area with
      | .error er => .error er
      | .ok (er, area) => .ok (.Error er, area)
    else .error (.InvalidTag tag)

/-- `impl ToBin for Rep<UD>`. -/
def Rep.encode_len (lenU : UD → Nat) : Rep UD → Nat
  | .InitAck | .TerminateAck | .TooBusy | .WantCrash => 1
  | .Result workload => 1 + workload.encode_len (LookupResult.encode_len lenU)
  | .Unexpected req => 1 + req.encode_len lenU

def Rep.encode (e : Endian) (encU : UD → Bytes) : Rep UD → Bytes
  | .InitAck => [1]
  | .Result workload => 2 :: workload.encode e (LookupResult.encode e encU)
  | .TerminateAck => [3]
  | .Unexpected req => 4 :: req.encode e encU
  | .TooBusy => [5]
  | .WantCrash => [6]

def Rep.decode (e : Endian) (decU : Bytes → DecRes UD) (l : Bytes) : DecRes (Rep UD) :=
  match l with
  | [] => .error .UnexpectedEOF
  | tag :: area =>
    if tag = 1 then .ok (.InitAck, area)
    else if tag = 2 then
      match Workload.decode e (LookupResult.decode e decU) area with
      | .error er => .error er
      | .ok (workload, area) => .ok (.Result workload, area)
    else if tag = 3 then .ok (.TerminateAck, area)
    else if tag = 4 then
      match Req.decode e decU area with
      | .error er => .error er
      | .ok (req, area) => .ok (.Unexpected req, area)
    else if tag = 5 then .ok (.TooBusy, area)
    else if tag = 6 then .ok (.WantCrash, area)
    else .error (.InvalidTag tag)

/-! ## Size bounds

`bin.rs` writes string lengths and `Workload::Many` element counts with
`as u32` casts.  The following boolean predicates state that every such
length in a value fits in 32 bits; values violating them exist in the model
(and, on a 64-bit host, in Rust) and break the round trip. -/

def PStr.fits (s : PStr) : Bool := decide (s.val.length < 2 ^ 32)

def Workload.fits (fitsT : T → Bool) : Workload T → Bool
  | .Single value => fitsT value
  | .Many values => decide (values.length < 2 ^ 32) && values.all fitsT

def PostAction.fits (fitsU : UD → Bool) : PostAction UD → Bool
  | .None => true
  | .InsertNew _ _ u => fitsU u

def LookupTask.fits (fitsU : UD → Bool) (t : LookupTask UD) : Bool :=
  t.text.fits && t.post_action.fits fitsU

def Req.fits (fitsU : UD → Bool) : Req UD → Bool
  | .Init | .Terminate => true
  | .Lookup workload => workload.fits (LookupTask.fits fitsU)

def Trans.fits (fitsU : UD → Bool) : Trans UD → Bool
  | .Async req | .Sync req => req.fits fitsU

def Match.fits (fitsU : UD → Bool) (m : Match UD) : Bool := fitsU m.user_data

def LookupResult.fits (fitsU : UD → Bool) : LookupResult UD → Bool
  | .EmptySet => true
  | .Best m => m.fits fitsU
  | .Neighbours workload => workload.fits (Match.fits fitsU)
  | .Error er => er.fits

def Rep.fits (fitsU : UD → Bool) : Rep UD → Bool
  | .InitAck | .TerminateAck | .TooBusy | .WantCrash => true
  | .Result workload => workload.fits (LookupResult.fits fitsU)
  | .Unexpected req => req.fits fitsU

/-- A user-data binary codec dictionary, as a Rust caller would supply by
implementing `ToBin`/`FromBin` for `UD`. -/
structure BinDict (UD : Type) where
  enc : UD → Bytes
  len : UD → Nat
  dec : Bytes → DecRes UD
  fits : UD → Bool

/-- The laws a well-behaved `ToBin`/`FromBin` pair satisfies: the declared
size matches the bytes written; appending junk after an encoding decodes to
the value and the junk; decoding a strict prefix of an encoding reports
`UnexpectedEOF`. -/
structure BinLaws (d : BinDict UD) : Prop where
  enc_length : ∀ u, (d.enc u).length = d.len u
  dec_enc : ∀ u, d.fits u = true → ∀ rest, d.dec (d.enc u ++ rest) = .ok (u, rest)
  dec_take : ∀ u, d.fits u = true → ∀ k, k < (d.enc u).length →
    d.dec ((d.enc u).take k) = .error .UnexpectedEOF

/-! ## Basic lemmas on the fixed-width machinery -/

theorem leBytes_length (w x : Nat) : (leBytes w x).length = w := by
  induction w generalizing x with
  | zero => rfl
  | succ w ih => simp [leBytes, ih]

theorem fromLE_leBytes (w x : Nat) : fromLE (leBytes w x) = x % 256 ^ w := by
  induction w generalizing x with
  | zero => simp [leBytes, fromLE, Nat.mod_one]
  | succ w ih =>
    simp only [leBytes, fromLE, ih]
    rw [pow_succ', Nat.mod_mul]

theorem putBytes_length (e : Endian) (w x : Nat) : (putBytes e w x).length = w := by
  cases e <;> simp [putBytes, leBytes_length]

theorem getW_short (e : Endian) (w : Nat) {l : Bytes} (h : l.length < w) :
    getW e w l = .error .UnexpectedEOF := by
  simp [getW, h]

theorem getW_putBytes (e : Endian) (w x : Nat) (rest : Bytes) :
    getW e w (putBytes e w x ++ rest) = .ok (x % 2 ^ (8 * w), rest) := by
  have hlen : (putBytes e w x).length = w := putBytes_length e w x
  have hpow : (2 : Nat) ^ (8 * w) = 256 ^ w := by
    rw [pow_mul]; norm_num
  unfold getW
  rw [if_neg (by simp [hlen, Nat.not_lt])]
  rw [List.take_left' hlen, List.drop_left' hlen]
  cases e with
  | little =>
    simp only [putBytes, fromLE_leBytes, hpow]
    rw [Nat.mod_mod_of_dvd _ dvd_rfl]
  | big =>
    simp only [putBytes, List.reverse_reverse, fromLE_leBytes, hpow]
    rw [Nat.mod_mod_of_dvd _ dvd_rfl]

theorem getW_putBytes_lt (e : Endian) (w x : Nat) (hx : x < 2 ^ (8 * w)) (rest : Bytes) :
    getW e w (putBytes e w x ++ rest) = .ok (x, rest) := by
  rw [getW_putBytes, Nat.mod_eq_of_lt hx]

theorem getW_putBytes_take (e : Endian) (w x k : Nat) (hk : k < w) :
    getW e w ((putBytes e w x).take k) = .error .UnexpectedEOF := by
  apply getW_short
  simp [putBytes_length]
  omega

/-! ## Binary codec laws, leaf types -/

theorem pstr_enc_length (e : Endian) (s : PStr) :
    (PStr.encode e s).length = s.encode_len := by
  simp [PStr.encode, PStr.encode_len, putBytes_length]

theorem pstr_dec_enc (e : Endian) (s : PStr) (hs : s.fits = true) (rest : Bytes) :
    PStr.decode e (PStr.encode e s ++ rest) = .ok (s, rest) := by
  have hlt : s.val.length < 2 ^ (8 * 4) := by
    have := of_decide_eq_true hs
    omega
  simp only [PStr.decode, PStr.encode, List.append_assoc, getW_putBytes_lt e 4 _ hlt]
  rw [if_neg (by simp [Nat.not_lt])]
  rw [List.take_left' rfl, List.drop_left' rfl]
  have hsv := s.property
  split
  · rfl
  · simp_all

theorem pstr_dec_take (e : Endian) (s : PStr) (hs : s.fits = true) (k : Nat)
    (hk : k < (PStr.encode e s).length) :
    PStr.decode e ((PStr.encode e s).take k) = .error .UnexpectedEOF := by
  by_cases h4 : k < 4
  · simp only [PStr.decode, PStr.encode]
    rw [List.take_append_of_le_length (by simp [putBytes_length]; omega)]
    rw [getW_putBytes_take e 4 _ k h4]
  · have hlt : s.val.length < 2 ^ (8 * 4) := by
      have := of_decide_eq_true hs
      omega
    have hk' : k - 4 < s.val.length := by
      have := pstr_enc_length e s
      simp [PStr.encode_len] at this
      omega
    simp only [PStr.decode, PStr.encode, List.take_append_eq_append_take,
      List.take_of_length_le
        (show (putBytes e 4 s.val.length).length ≤ k by rw [putBytes_length]; omega),
      putBytes_length, getW_putBytes, Nat.mod_eq_of_lt hlt]
    rw [if_pos (by simp [List.length_take]; omega)]

theorem u64_enc_length (e : Endian) (x : U64) : (U64.encode e x).length = x.encode_len := by
  simp [U64.encode, U64.encode_len, putBytes_length]

theorem u64_dec_enc (e : Endian) (x : U64) (rest : Bytes) :
    U64.decode e (U64.encode e x ++ rest) = .ok (x, rest) := by
  have hlt : x.val < 2 ^ (8 * 8) := by have := x.property; omega
  simp only [U64.decode, U64.encode, getW_putBytes_lt e 8 _ hlt]
  congr 1
  refine Prod.ext ?_ rfl
  exact Subtype.ext (Nat.mod_eq_of_lt (by have := x.property; omega))

theorem u64_dec_take (e : Endian) (x : U64) (k : Nat)
    (hk : k < (U64.encode e x).length) :
    U64.decode e ((U64.encode e x).take k) = .error .UnexpectedEOF := by
  have hk8 : k < 8 := by simpa [U64.encode, putBytes_length] using hk
  simp only [U64.decode, U64.encode, getW_putBytes_take e 8 _ k hk8]

theorem f64_enc_length (e : Endian) (x : F64) : (F64.encode e x).length = x.encode_len := by
  simp [F64.encode, F64.encode_len, putBytes_length]

theorem f64_dec_enc (e : Endian) (x : F64) (rest : Bytes) :
    F64.decode e (F64.encode e x ++ rest) = .ok (x, rest) := by
  have hlt : x.val < 2 ^ (8 * 8) := by have := x.property; omega
  simp only [F64.decode, F64.encode, getW_putBytes_lt e 8 _ hlt]
  congr 1
  refine Prod.ext ?_ rfl
  exact Subtype.ext (Nat.mod_eq_of_lt (by have := x.property; omega))

theorem f64_dec_take (e : Endian) (x : F64) (k : Nat)
    (hk : k < (F64.encode e x).length) :
    F64.decode e ((F64.encode e x).take k) = .error .UnexpectedEOF := by
  have hk8 : k < 8 := by simpa [F64.encode, putBytes_length] using hk
  simp only [F64.decode, F64.encode, getW_putBytes_take e 8 _ k hk8]

/-! ## Binary codec laws, tag-only and fixed-field types -/

theorem lookupType_enc_length (v : LookupType) :
    (LookupType.encode v).length = v.encode_len := by
  cases v <;> rfl

theorem lookupType_dec_enc (v : LookupType) (rest : Bytes) :
    LookupType.decode (LookupType.encode v ++ rest) = .ok (v, rest) := by
  cases v <;> simp [LookupType.encode, LookupType.decode]

theorem lookupType_dec_take (v : LookupType) (k : Nat)
    (hk : k < (LookupType.encode v).length) :
    LookupType.decode ((LookupType.encode v).take k) = .error .UnexpectedEOF := by
  cases v <;>
    · simp only [LookupType.encode, List.length_cons, List.length_nil] at hk
      have : k = 0 := by omega
      subst this
      rfl

theorem insertCond_enc_length (e : Endian) (c : InsertCond) :
    (InsertCond.encode e c).length = c.encode_len := by
  cases c <;> simp [InsertCond.encode, InsertCond.encode_len, putBytes_length]

theorem insertCond_dec_enc (e : Endian) (c : InsertCond) (rest : Bytes) :
    InsertCond.decode e (InsertCond.encode e c ++ rest) = .ok (c, rest) := by
  cases c with
  | Always => simp [InsertCond.encode, InsertCond.decode]
  | BestSimLessThan sim =>
    have h := f64_dec_enc e sim rest
    simp only [F64.encode] at h
    simp [InsertCond.encode, InsertCond.decode, h]

theorem insertCond_dec_take (e : Endian) (c : InsertCond) (k : Nat)
    (hk : k < (InsertCond.encode e c).length) :
    InsertCond.decode e ((InsertCond.encode e c).take k) = .error .UnexpectedEOF := by
  cases c with
  | Always =>
    simp only [InsertCond.encode, List.length_cons, List.length_nil] at hk
    have : k = 0 := by omega
    subst this
    rfl
  | BestSimLessThan sim =>
    simp only [InsertCond.encode, List.length_cons, putBytes_length] at hk
    match k with
    | 0 => rfl
    | j + 1 =>
      have h := f64_dec_take e sim j (by simp [F64.encode, putBytes_length]; omega)
      simp only [F64.encode] at h
      simp [InsertCond.encode, InsertCond.decode, h]

theorem assignCond_enc_length (e : Endian) (c : AssignCond) :
    (AssignCond.encode e c).length = c.encode_len := by
  cases c <;> simp [AssignCond.encode, AssignCond.encode_len, putBytes_length]

theorem assignCond_dec_enc (e : Endian) (c : AssignCond) (rest : Bytes) :
    AssignCond.decode e (AssignCond.encode e c ++ rest) = .ok (c, rest) := by
  cases c with
  | Always => simp [AssignCond.encode, AssignCond.decode]
  | BestSimLessThan sim =>
    have h := f64_dec_enc e sim rest
    simp only [F64.encode] at h
    simp [AssignCond.encode, AssignCond.decode, h]

theorem assignCond_dec_take (e : Endian) (c : AssignCond) (k : Nat)
    (hk : k < (AssignCond.encode e c).length) :
    AssignCond.decode e ((AssignCond.encode e c).take k) = .error .UnexpectedEOF := by
  cases c with
  | Always =>
    simp only [AssignCond.encode, List.length_cons, List.length_nil] at hk
    have : k = 0 := by omega
    subst this
    rfl
  | BestSimLessThan sim =>
    simp only [AssignCond.encode, List.length_cons, putBytes_length] at hk
    match k with
    | 0 => rfl
    | j + 1 =>
      have h := f64_dec_take e sim j (by simp [F64.encode, putBytes_length]; omega)
      simp only [F64.encode] at h
      simp [AssignCond.encode, AssignCond.decode, h]

theorem clusterChoice_enc_length (e : Endian) (c : ClusterChoice) :
    (ClusterChoice.encode e c).length = c.encode_len := by
  cases c <;> simp [ClusterChoice.encode, ClusterChoice.encode_len, putBytes_length]

theorem clusterChoice_dec_enc (e : Endian) (c : ClusterChoice) (rest : Bytes) :
    ClusterChoice.decode e (ClusterChoice.encode e c ++ rest) = .ok (c, rest) := by
  cases c with
  | ServerChoice => simp [ClusterChoice.encode, ClusterChoice.decode]
  | ClientChoice cid =>
    have h := u64_dec_enc e cid rest
    simp only [U64.encode] at h
    simp [ClusterChoice.encode, ClusterChoice.decode, h]

theorem clusterChoice_dec_take (e : Endian) (c : ClusterChoice) (k : Nat)
    (hk : k < (ClusterChoice.encode e c).length) :
    ClusterChoice.decode e ((ClusterChoice.encode e c).take k) = .error .UnexpectedEOF := by
  cases c with
  | ServerChoice =>
    simp only [ClusterChoice.encode, List.length_cons, List.length_nil] at hk
    have : k = 0 := by omega
    subst this
    rfl
  | ClientChoice cid =>
    simp only [ClusterChoice.encode, List.length_cons, putBytes_length] at hk
    match k with
    | 0 => rfl
    | j + 1 =>
      have h := u64_dec_take e cid j (by simp [U64.encode, putBytes_length]; omega)
      simp only [U64.encode] at h
      simp [ClusterChoice.encode, ClusterChoice.decode, h]

theorem clusterAssign_enc_length (e : Endian) (ca : ClusterAssign) :
    (ClusterAssign.encode e ca).length = ca.encode_len := by
  simp [ClusterAssign.encode, ClusterAssign.encode_len,
    assignCond_enc_length, clusterChoice_enc_length]

theorem clusterAssign_dec_enc (e : Endian) (ca : ClusterAssign) (rest : Bytes) :
    ClusterAssign.decode e (ClusterAssign.encode e ca ++ rest) = .ok (ca, rest) := by
  simp [ClusterAssign.encode, ClusterAssign.decode, List.append_assoc,
    assignCond_dec_enc, clusterChoice_dec_enc]

theorem clusterAssign_dec_take (e : Endian) (ca : ClusterAssign) (k : Nat)
    (hk : k < (ClusterAssign.encode e ca).length) :
    ClusterAssign.decode e ((ClusterAssign.encode e ca).take k) = .error .UnexpectedEOF := by
  by_cases h1 : k < (AssignCond.encode e ca.cond).length
  · simp only [ClusterAssign.encode, ClusterAssign.decode,
      List.take_append_of_le_length (le_of_lt h1), assignCond_dec_take e ca.cond k h1]
  · have hle : (AssignCond.encode e ca.cond).length ≤ k := Nat.le_of_not_lt h1
    have h2 : k - (AssignCond.encode e ca.cond).length <
        (ClusterChoice.encode e ca.choice).length := by
      simp only [ClusterAssign.encode, List.length_append] at hk
      omega
    simp only [ClusterAssign.encode, ClusterAssign.decode,
      List.take_append_eq_append_take, List.take_of_length_le hle,
      assignCond_dec_enc, clusterChoice_dec_take e ca.choice _ h2]

/-- Taking `k ≥ l₁.length` elements of `l₁ ++ l₂` keeps all of `l₁`. -/
theorem take_append_ge {l₁ l₂ : Bytes} {k : Nat} (h : l₁.length ≤ k) :
    (l₁ ++ l₂).take k = l₁ ++ l₂.take (k - l₁.length) := by
  rw [List.take_append_eq_append_take, List.take_of_length_le h]

/-! ## Binary codec laws, `PostAction` and `LookupTask` -/

theorem postAction_enc_length (e : Endian) (d : BinDict UD)
    (hl : ∀ u, (d.enc u).length = d.len u) (pa : PostAction UD) :
    (PostAction.encode e d.enc pa).length = pa.encode_len d.len := by
  cases pa with
  | None => rfl
  | InsertNew c a u =>
    simp [PostAction.encode, PostAction.encode_len, insertCond_enc_length,
      clusterAssign_enc_length, hl]
    omega

theorem postAction_dec_enc (e : Endian) (d : BinDict UD) (hd : BinLaws d)
    (pa : PostAction UD) (hpa : pa.fits d.fits = true) (rest : Bytes) :
    PostAction.decode e d.dec (PostAction.encode e d.enc pa ++ rest) = .ok (pa, rest) := by
  cases pa with
  | None => simp [PostAction.encode, PostAction.decode]
  | InsertNew c a u =>
    have hu : d.fits u = true := by simpa [PostAction.fits] using hpa
    simp [PostAction.encode, PostAction.decode, List.append_assoc,
      insertCond_dec_enc, clusterAssign_dec_enc, hd.dec_enc u hu]

theorem postAction_dec_take (e : Endian) (d : BinDict UD) (hd : BinLaws d)
    (pa : PostAction UD) (hpa : pa.fits d.fits = true) (k : Nat)
    (hk : k < (PostAction.encode e d.enc pa).length) :
    PostAction.decode e d.dec ((PostAction.encode e d.enc pa).take k) =
      .error .UnexpectedEOF := by
  cases pa with
  | None =>
    simp only [PostAction.encode, List.length_cons, List.length_nil] at hk
    have : k = 0 := by omega
    subst this
    rfl
  | InsertNew c a u =>
    have hu : d.fits u = true := by simpa [PostAction.fits] using hpa
    match k with
    | 0 => rfl
    | j + 1 =>
      have hk' : j < (InsertCond.encode e c).length +
          ((ClusterAssign.encode e a).length + (d.enc u).length) := by
        simp only [PostAction.encode, List.length_cons, List.length_append] at hk
        omega
      by_cases h1 : j < (InsertCond.encode e c).length
      · simp [PostAction.encode, PostAction.decode, List.append_assoc,
          List.take_succ_cons, List.take_append_of_le_length (le_of_lt h1),
          insertCond_dec_take e c j h1]
      · have hle1 : (InsertCond.encode e c).length ≤ j := Nat.le_of_not_lt h1
        set j1 := j - (InsertCond.encode e c).length with hj1
        by_cases h2 : j1 < (ClusterAssign.encode e a).length
        · simp [PostAction.encode, PostAction.decode, List.append_assoc,
            List.take_succ_cons, take_append_ge hle1,
            List.take_append_of_le_length (le_of_lt h2), insertCond_dec_enc,
            clusterAssign_dec_take e a j1 h2]
        · have hle2 : (ClusterAssign.encode e a).length ≤ j1 := Nat.le_of_not_lt h2
          have h3 : j1 - (ClusterAssign.encode e a).length < (d.enc u).length := by
            omega
          simp [PostAction.encode, PostAction.decode, List.append_assoc,
            List.take_succ_cons, take_append_ge hle1, take_append_ge hle2,
            insertCond_dec_enc, clusterAssign_dec_enc, hd.dec_take u hu _ h3]

theorem lookupTask_enc_length (e : Endian) (d : BinDict UD)
    (hl : ∀ u, (d.enc u).length = d.len u) (t : LookupTask UD) :
    (LookupTask.encode e d.enc t).length = t.encode_len d.len := by
  simp [LookupTask.encode, LookupTask.encode_len, pstr_enc_length,
    lookupType_enc_length, postAction_enc_length e d hl]
  omega

theorem lookupTask_dec_enc (e : Endian) (d : BinDict UD) (hd : BinLaws d)
    (t : LookupTask UD) (ht : t.fits d.fits = true) (rest : Bytes) :
    LookupTask.decode e d.dec (LookupTask.encode e d.enc t ++ rest) = .ok (t, rest) := by
  have htext : t.text.fits = true := by
    simp only [LookupTask.fits, Bool.and_eq_true] at ht
    exact ht.1
  have hpa : t.post_action.fits d.fits = true := by
    simp only [LookupTask.fits, Bool.and_eq_true] at ht
    exact ht.2
  simp [LookupTask.encode, LookupTask.decode, List.append_assoc,
    pstr_dec_enc e t.text htext, lookupType_dec_enc,
    postAction_dec_enc e d hd t.post_action hpa]

theorem lookupTask_dec_take (e : Endian) (d : BinDict UD) (hd : BinLaws d)
    (t : LookupTask UD) (ht : t.fits d.fits = true) (k : Nat)
    (hk : k < (LookupTask.encode e d.enc t).length) :
    LookupTask.decode e d.dec ((LookupTask.encode e d.enc t).take k) =
      .error .UnexpectedEOF := by
  have htext : t.text.fits = true := by
    simp only [LookupTask.fits, Bool.and_eq_true] at ht
    exact ht.1
  have hpa : t.post_action.fits d.fits = true := by
    simp only [LookupTask.fits, Bool.and_eq_true] at ht
    exact ht.2
  rw [show LookupTask.encode e d.enc t =
    PStr.encode e t.text ++ (LookupType.encode t.result ++
      PostAction.encode e d.enc t.post_action) from by
    simp [LookupTask.encode, List.append_assoc]] at hk ⊢
  by_cases h1 : k < (PStr.encode e t.text).length
  · simp only [LookupTask.decode, List.take_append_of_le_length (le_of_lt h1),
      pstr_dec_take e t.text htext k h1]
  · have hle1 : (PStr.encode e t.text).length ≤ k := Nat.le_of_not_lt h1
    set k1 := k - (PStr.encode e t.text).length with hk1
    by_cases h2 : k1 < (LookupType.encode t.result).length
    · simp only [LookupTask.decode, take_append_ge hle1,
        List.take_append_of_le_length (le_of_lt h2), pstr_dec_enc e t.text htext,
        lookupType_dec_take t.result k1 h2]
    · have hle2 : (LookupType.encode t.result).length ≤ k1 := Nat.le_of_not_lt h2
      have h3 : k1 - (LookupType.encode t.result).length <
          (PostAction.encode e d.enc t.post_action).length := by
        simp only [List.length_append] at hk
        omega
      simp only [LookupTask.decode, take_append_ge hle1, take_append_ge hle2,
        pstr_dec_enc e t.text htext, lookupType_dec_enc,
        postAction_dec_take e d hd t.post_action hpa _ h3]

/-! ## Binary codec laws, `Workload` -/

theorem foldl_add_len (lenT : T → Nat) (values : List T) (n : Nat) :
    values.foldl (fun total value => total + lenT value) n = n + (values.map lenT).sum := by
  induction values generalizing n with
  | nil => simp
  | cons v vs ih => simp [List.foldl_cons, ih]; omega

theorem workload_enc_length (e : Endian) (encT : T → Bytes) (lenT : T → Nat)
    (hl : ∀ t, (encT t).length = lenT t) (w : Workload T) :
    (Workload.encode e encT w).length = w.encode_len lenT := by
  cases w with
  | Single value => simp [Workload.encode, Workload.encode_len, hl]; omega
  | Many values =>
    simp [Workload.encode, Workload.encode_len, putBytes_length, List.length_flatten,
      foldl_add_len, Function.comp_def, hl]
    rw [show (fun x => lenT x) = lenT from rfl]
    omega

theorem workload_decodeMany_ok (decT : Bytes → DecRes T) (encT : T → Bytes)
    (fitsT : T → Bool)
    (hde : ∀ t, fitsT t = true → ∀ rest, decT (encT t ++ rest) = .ok (t, rest)) :
    ∀ (values : List T), values.all fitsT = true → ∀ rest,
      Workload.decodeMany decT values.length ((values.map encT).flatten ++ rest) =
        .ok (values, rest) := by
  intro values
  induction values with
  | nil => intro _ rest; simp [Workload.decodeMany]
  | cons v vs ih =>
    intro hall rest
    have hv : fitsT v = true := by
      simp only [List.all_cons, Bool.and_eq_true] at hall
      exact hall.1
    have hvs : vs.all fitsT = true := by
      simp only [List.all_cons, Bool.and_eq_true] at hall
      exact hall.2
    simp [Workload.decodeMany, List.append_assoc, hde v hv, ih hvs rest]

theorem workload_dec_enc (e : Endian) (encT : T → Bytes) (decT : Bytes → DecRes T)
    (fitsT : T → Bool)
    (hde : ∀ t, fitsT t = true → ∀ rest, decT (encT t ++ rest) = .ok (t, rest))
    (w : Workload T) (hw : w.fits fitsT = true) (rest : Bytes) :
    Workload.decode e decT (Workload.encode e encT w ++ rest) = .ok (w, rest) := by
  cases w with
  | Single value =>
    have hv : fitsT value = true := by simpa [Workload.fits] using hw
    simp [Workload.encode, Workload.decode, hde value hv]
  | Many values =>
    have hn : values.length < 2 ^ (8 * 4) := by
      simp only [Workload.fits, Bool.and_eq_true, decide_eq_true_eq] at hw
      have := hw.1
      omega
    have hall : values.all fitsT = true := by
      simp only [Workload.fits, Bool.and_eq_true] at hw
      exact hw.2
    simp [Workload.encode, Workload.decode, List.append_assoc,
      getW_putBytes_lt e 4 _ hn, workload_decodeMany_ok decT encT fitsT hde values hall]

theorem workload_decodeMany_take (decT : Bytes → DecRes T) (encT : T → Bytes)
    (fitsT : T → Bool)
    (hde : ∀ t, fitsT t = true → ∀ rest, decT (encT t ++ rest) = .ok (t, rest))
    (hdt : ∀ t, fitsT t = true → ∀ k, k < (encT t).length →
      decT ((encT t).take k) = .error .UnexpectedEOF) :
    ∀ (values : List T), values.all fitsT = true → ∀ j,
      j < ((values.map encT).flatten).length →
      Workload.decodeMany decT values.length (((values.map encT).flatten).take j) =
        .error .UnexpectedEOF := by
  intro values
  induction values with
  | nil => intro _ j hj; simp at hj
  | cons v vs ih =>
    intro hall j hj
    have hv : fitsT v = true := by
      simp only [List.all_cons, Bool.and_eq_true] at hall
      exact hall.1
    have hvs : vs.all fitsT = true := by
      simp only [List.all_cons, Bool.and_eq_true] at hall
      exact hall.2
    simp only [List.map_cons, List.flatten_cons, List.length_append] at hj
    by_cases h1 : j < (encT v).length
    · simp [Workload.decodeMany, List.map_cons, List.flatten_cons,
        List.take_append_of_le_length (le_of_lt h1), hdt v hv j h1]
    · have hle1 : (encT v).length ≤ j := Nat.le_of_not_lt h1
      have h2 : j - (encT v).length < ((vs.map encT).flatten).length := by omega
      simp [Workload.decodeMany, List.map_cons, List.flatten_cons, take_append_ge hle1,
        hde v hv, ih hvs _ h2]

theorem workload_dec_take (e : Endian) (encT : T → Bytes) (decT : Bytes → DecRes T)
    (fitsT : T → Bool)
    (hde : ∀ t, fitsT t = true → ∀ rest, decT (encT t ++ rest) = .ok (t, rest))
    (hdt : ∀ t, fitsT t = true → ∀ k, k < (encT t).length →
      decT ((encT t).take k) = .error .UnexpectedEOF)
    (w : Workload T) (hw : w.fits fitsT = true) (k : Nat)
    (hk : k < (Workload.encode e encT w).length) :
    Workload.decode e decT ((Workload.encode e encT w).take k) = .error .UnexpectedEOF := by
  cases w with
  | Single value =>
    have hv : fitsT value = true := by simpa [Workload.fits] using hw
    match k with
    | 0 => rfl
    | j + 1 =>
      have hj : j < (encT value).length := by
        simp only [Workload.encode, List.length_cons] at hk
        omega
      simp [Workload.encode, Workload.decode, List.take_succ_cons, hdt value hv j hj]
  | Many values =>
    have hn : values.length < 2 ^ (8 * 4) := by
      simp only [Workload.fits, Bool.and_eq_true, decide_eq_true_eq] at hw
      have := hw.1
      omega
    have hall : values.all fitsT = true := by
      simp only [Workload.fits, Bool.and_eq_true] at hw
      exact hw.2
    match k with
    | 0 => rfl
    | j + 1 =>
      have hj : j < 4 + ((values.map encT).flatten).length := by
        simp only [Workload.encode, List.length_cons, List.length_append,
          putBytes_length] at hk
        omega
      by_cases h4 : j < 4
      · simp [Workload.encode, Workload.decode, List.take_succ_cons,
          List.take_append_of_le_length
            (show j ≤ (putBytes e 4 values.length).length by rw [putBytes_length]; omega),
          getW_putBytes_take e 4 _ j h4]
      · have hle4 : (putBytes e 4 values.length).length ≤ j := by
          rw [putBytes_length]; omega
        have h2 : j - (putBytes e 4 values.length).length <
            ((values.map encT).flatten).length := by
          rw [putBytes_length]; omega
        simp [Workload.encode, Workload.decode, List.take_succ_cons, take_append_ge hle4,
          getW_putBytes_lt e 4 _ hn,
          workload_decodeMany_take decT encT fitsT hde hdt values hall _ h2]

/-! ## Binary codec laws, `Req` and `Trans` -/

theorem req_enc_length (e : Endian) (d : BinDict UD)
    (hl : ∀ u, (d.enc u).length = d.len u) (r : Req UD) :
    (Req.encode e d.enc r).length = r.encode_len d.len := by
  cases r with
  | Init => rfl
  | Terminate => rfl
  | Lookup workload =>
    simp [Req.encode, Req.encode_len,
      workload_enc_length e _ _ (lookupTask_enc_length e d hl) workload]
    omega

theorem req_dec_enc (e : Endian) (d : BinDict UD) (hd : BinLaws d)
    (r : Req UD) (hr : r.fits d.fits = true) (rest : Bytes) :
    Req.decode e d.dec (Req.encode e d.enc r ++ rest) = .ok (r, rest) := by
  cases r with
  | Init => simp [Req.encode, Req.decode]
  | Terminate => simp [Req.encode, Req.decode]
  | Lookup workload =>
    have hw : workload.fits (LookupTask.fits d.fits) = true := by
      simpa [Req.fits] using hr
    simp [Req.encode, Req.decode,
      workload_dec_enc e _ _ _ (fun t ht rest => lookupTask_dec_enc e d hd t ht rest)
        workload hw rest]

theorem req_dec_take (e : Endian) (d : BinDict UD) (hd : BinLaws d)
    (r : Req UD) (hr : r.fits d.fits = true) (k : Nat)
    (hk : k < (Req.encode e d.enc r).length) :
    Req.decode e d.dec ((Req.encode e d.enc r).take k) = .error .UnexpectedEOF := by
  cases r with
  | Init =>
    simp only [Req.encode, List.length_cons, List.length_nil] at hk
    have : k = 0 := by omega
    subst this
    rfl
  | Terminate =>
    simp only [Req.encode, List.length_cons, List.length_nil] at hk
    have : k = 0 := by omega
    subst this
    rfl
  | Lookup workload =>
    have hw : workload.fits (LookupTask.fits d.fits) = true := by
      simpa [Req.fits] using hr
    match k with
    | 0 => rfl
    | j + 1 =>
      have hj : j < (Workload.encode e (LookupTask.encode e d.enc) workload).length := by
        simp only [Req.encode, List.length_cons] at hk
        omega
      simp [Req.encode, Req.decode, List.take_succ_cons,
        workload_dec_take e _ _ _ (fun t ht rest => lookupTask_dec_enc e d hd t ht rest)
          (fun t ht k hk => lookupTask_dec_take e d hd t ht k hk) workload hw j hj]

theorem trans_enc_length (e : Endian) (d : BinDict UD)
    (hl : ∀ u, (d.enc u).length = d.len u) (t : Trans UD) :
    (Trans.encode e d.enc t).length = t.encode_len d.len := by
  cases t <;> simp [Trans.encode, Trans.encode_len, req_enc_length e d hl] <;> omega

theorem trans_dec_enc (e : Endian) (d : BinDict UD) (hd : BinLaws d)
    (t : Trans UD) (ht : t.fits d.fits = true) (rest : Bytes) :
    Trans.decode e d.dec (Trans.encode e d.enc t ++ rest) = .ok (t, rest) := by
  cases t with
  | Async req =>
    have hr : req.fits d.fits = true := by simpa [Trans.fits] using ht
    simp [Trans.encode, Trans.decode, req_dec_enc e d hd req hr]
  | Sync req =>
    have hr : req.fits d.fits = true := by simpa [Trans.fits] using ht
    simp [Trans.encode, Trans.decode, req_dec_enc e d hd req hr]

theorem trans_dec_take (e : Endian) (d : BinDict UD) (hd : BinLaws d)
    (t : Trans UD) (ht : t.fits d.fits = true) (k : Nat)
    (hk : k < (Trans.encode e d.enc t).length) :
    Trans.decode e d.dec ((Trans.encode e d.enc t).take k) = .error .UnexpectedEOF := by
  cases t with
  | Async req =>
    have hr : req.fits d.fits = true := by simpa [Trans.fits] using ht
    match k with
    | 0 => rfl
    | j + 1 =>
      have hj : j < (Req.encode e d.enc req).length := by
        simp only [Trans.encode, List.length_cons] at hk
        omega
      simp [Trans.encode, Trans.decode, List.take_succ_cons,
        req_dec_take e d hd req hr j hj]
  | Sync req =>
    have hr : req.fits d.fits = true := by simpa [Trans.fits] using ht
    match k with
    | 0 => rfl
    | j + 1 =>
      have hj : j < (Req.encode e d.enc req).length := by
        simp only [Trans.encode, List.length_cons] at hk
        omega
      simp [Trans.encode, Trans.decode, List.take_succ_cons,
        req_dec_take e d hd req hr j hj]

/-! ## Binary codec laws, `Match`, `LookupResult` and `Rep` -/

theorem match_enc_length (e : Endian) (d : BinDict UD)
    (hl : ∀ u, (d.enc u).length = d.len u) (m : Match UD) :
    (Match.encode e d.enc m).length = m.encode_len d.len := by
  simp [Match.encode, Match.encode_len, putBytes_length, hl]
  omega

theorem match_dec_enc (e : Endian) (d : BinDict UD) (hd : BinLaws d)
    (m : Match UD) (hm : m.fits d.fits = true) (rest : Bytes) :
    Match.decode e d.dec (Match.encode e d.enc m ++ rest) = .ok (m, rest) := by
  obtain ⟨⟨cid, hcid⟩, ⟨sim, hsim⟩, u⟩ := m
  have hu : d.fits u = true := by simpa [Match.fits] using hm
  have h1 : cid < 2 ^ (8 * 8) := by omega
  have h2 : sim < 2 ^ (8 * 8) := by omega
  simp [Match.encode, Match.decode, List.append_assoc, getW_putBytes_lt e 8 _ h1,
    getW_putBytes_lt e 8 _ h2, hd.dec_enc _ hu]
  constructor
  · exact Subtype.ext (Nat.mod_eq_of_lt hcid)
  · exact Subtype.ext (Nat.mod_eq_of_lt hsim)

theorem match_dec_take (e : Endian) (d : BinDict UD) (hd : BinLaws d)
    (m : Match UD) (hm : m.fits d.fits = true) (k : Nat)
    (hk : k < (Match.encode e d.enc m).length) :
    Match.decode e d.dec ((Match.encode e d.enc m).take k) = .error .UnexpectedEOF := by
  have hu : d.fits m.user_data = true := by simpa [Match.fits] using hm
  have h1 : m.cluster_id.val < 2 ^ (8 * 8) := by have := m.cluster_id.property; omega
  have h2 : m.similarity.val < 2 ^ (8 * 8) := by have := m.similarity.property; omega
  have hkk : k < 8 + (8 + (d.enc m.user_data).length) := by
    simp only [Match.encode, List.length_append, putBytes_length] at hk
    omega
  by_cases hc1 : k < 8
  · simp [Match.encode, Match.decode, List.append_assoc,
      List.take_append_of_le_length
        (show k ≤ (putBytes e 8 m.cluster_id.val).length by rw [putBytes_length]; omega),
      getW_putBytes_take e 8 _ k hc1]
  · have hle1 : (putBytes e 8 m.cluster_id.val).length ≤ k := by
      rw [putBytes_length]; omega
    by_cases hc2 : k - 8 < 8
    · simp [Match.encode, Match.decode, List.append_assoc, take_append_ge hle1,
        putBytes_length,
        List.take_append_of_le_length
          (show k - 8 ≤ (putBytes e 8 m.similarity.val).length by
            rw [putBytes_length]; omega),
        getW_putBytes_lt e 8 _ h1, getW_putBytes_take e 8 _ (k - 8) hc2]
    · have hle2 : (putBytes e 8 m.similarity.val).length ≤ k - 8 := by
        rw [putBytes_length]; omega
      have h3 : k - 8 - 8 < (d.enc m.user_data).length := by omega
      simp [Match.encode, Match.decode, List.append_assoc, take_append_ge hle1,
        take_append_ge hle2, putBytes_length, getW_putBytes_lt e 8 _ h1,
        getW_putBytes_lt e 8 _ h2, hd.dec_take _ hu _ h3]

theorem lookupResult_enc_length (e : Endian) (d : BinDict UD)
    (hl : ∀ u, (d.enc u).length = d.len u) (lr : LookupResult UD) :
    (LookupResult.encode e d.enc lr).length = lr.encode_len d.len := by
  cases lr with
  | EmptySet => rfl
  | Best m =>
    simp [LookupResult.encode, LookupResult.encode_len, match_enc_length e d hl]
    omega
  | Neighbours workload =>
    simp [LookupResult.encode, LookupResult.encode_len,
      workload_enc_length e _ _ (match_enc_length e d hl) workload]
    omega
  | Error er =>
    simp [LookupResult.encode, LookupResult.encode_len, pstr_enc_length]
    omega

theorem lookupResult_dec_enc (e : Endian) (d : BinDict UD) (hd : BinLaws d)
    (lr : LookupResult UD) (hlr : lr.fits d.fits = true) (rest : Bytes) :
    LookupResult.decode e d.dec (LookupResult.encode e d.enc lr ++ rest) = .ok (lr, rest) := by
  cases lr with
  | EmptySet => simp [LookupResult.encode, LookupResult.decode]
  | Best m =>
    have hm : m.fits d.fits = true := by simpa [LookupResult.fits] using hlr
    simp [LookupResult.encode, LookupResult.decode, match_dec_enc e d hd m hm]
  | Neighbours workload =>
    have hw : workload.fits (Match.fits d.fits) = true := by
      simpa [LookupResult.fits] using hlr
    simp [LookupResult.encode, LookupResult.decode,
      workload_dec_enc e _ _ _ (fun m hm rest => match_dec_enc e d hd m hm rest)
        workload hw rest]
  | Error er =>
    have her : er.fits = true := by simpa [LookupResult.fits] using hlr
    simp [LookupResult.encode, LookupResult.decode, pstr_dec_enc e er her]

theorem lookupResult_dec_take (e : Endian) (d : BinDict UD) (hd : BinLaws d)
    (lr : LookupResult UD) (hlr : lr.fits d.fits = true) (k : Nat)
    (hk : k < (LookupResult.encode e d.enc lr).length) :
    LookupResult.decode e d.dec ((LookupResult.encode e d.enc lr).take k) =
      .error .UnexpectedEOF := by
  cases lr with
  | EmptySet =>
    simp only [LookupResult.encode, List.length_cons, List.length_nil] at hk
    have : k = 0 := by omega
    subst this
    rfl
  | Best m =>
    have hm : m.fits d.fits = true := by simpa [LookupResult.fits] using hlr
    match k with
    | 0 => rfl
    | j + 1 =>
      have hj : j < (Match.encode e d.enc m).length := by
        simp only [LookupResult.encode, List.length_cons] at hk
        omega
      simp [LookupResult.encode, LookupResult.decode, List.take_succ_cons,
        match_dec_take e d hd m hm j hj]
  | Neighbours workload =>
    have hw : workload.fits (Match.fits d.fits) = true := by
      simpa [LookupResult.fits] using hlr
    match k with
    | 0 => rfl
    | j + 1 =>
      have hj : j < (Workload.encode e (Match.encode e d.enc) workload).length := by
        simp only [LookupResult.encode, List.length_cons] at hk
        omega
      simp [LookupResult.encode, LookupResult.decode, List.take_succ_cons,
        workload_dec_take e _ _ _ (fun m hm rest => match_dec_enc e d hd m hm rest)
          (fun m hm k hk => match_dec_take e d hd m hm k hk) workload hw j hj]
  | Error er =>
    have her : er.fits = true := by simpa [LookupResult.fits] using hlr
    match k with
    | 0 => rfl
    | j + 1 =>
      have hj : j < (PStr.encode e er).length := by
        simp only [LookupResult.encode, List.length_cons] at hk
        omega
      simp [LookupResult.encode, LookupResult.decode, List.take_succ_cons,
        pstr_dec_take e er her j hj]

theorem rep_enc_length (e : Endian) (d : BinDict UD)
    (hl : ∀ u, (d.enc u).length = d.len u) (rp : Rep UD) :
    (Rep.encode e d.enc rp).length = rp.encode_len d.len := by
  cases rp with
  | InitAck => rfl
  | TerminateAck => rfl
  | TooBusy => rfl
  | WantCrash => rfl
  | Result workload =>
    simp [Rep.encode, Rep.encode_len,
      workload_enc_length e _ _ (lookupResult_enc_length e d hl) workload]
    omega
  | Unexpected req =>
    simp [Rep.encode, Rep.encode_len, req_enc_length e d hl]
    omega

theorem rep_dec_enc (e : Endian) (d : BinDict UD) (hd : BinLaws d)
    (rp : Rep UD) (hrp : rp.fits d.fits = true) (rest : Bytes) :
    Rep.decode e d.dec (Rep.encode e d.enc rp ++ rest) = .ok (rp, rest) := by
  cases rp with
  | InitAck => simp [Rep.encode, Rep.decode]
  | TerminateAck => simp [Rep.encode, Rep.decode]
  | TooBusy => simp [Rep.encode, Rep.decode]
  | WantCrash => simp [Rep.encode, Rep.decode]
  | Result workload =>
    have hw : workload.fits (LookupResult.fits d.fits) = true := by
      simpa [Rep.fits] using hrp
    simp [Rep.encode, Rep.decode,
      workload_dec_enc e _ _ _ (fun lr hlr rest => lookupResult_dec_enc e d hd lr hlr rest)
        workload hw rest]
  | Unexpected req =>
    have hr : req.fits d.fits = true := by simpa [Rep.fits] using hrp
    simp [Rep.encode, Rep.decode, req_dec_enc e d hd req hr]

theorem rep_dec_take (e : Endian) (d : BinDict UD) (hd : BinLaws d)
    (rp : Rep UD) (hrp : rp.fits d.fits = true) (k : Nat)
    (hk : k < (Rep.encode e d.enc rp).length) :
    Rep.decode e d.dec ((Rep.encode e d.enc rp).take k) = .error .UnexpectedEOF := by
  cases rp with
  | InitAck =>
    simp only [Rep.encode, List.length_cons, List.length_nil] at hk
    have : k = 0 := by omega
    subst this
    rfl
  | TerminateAck =>
    simp only [Rep.encode, List.length_cons, List.length_nil] at hk
    have : k = 0 := by omega
    subst this
    rfl
  | TooBusy =>
    simp only [Rep.encode, List.length_cons, List.length_nil] at hk
    have : k = 0 := by omega
    subst this
    rfl
  | WantCrash =>
    simp only [Rep.encode, List.length_cons, List.length_nil] at hk
    have : k = 0 := by omega
    subst this
    rfl
  | Result workload =>
    have hw : workload.fits (LookupResult.fits d.fits) = true := by
      simpa [Rep.fits] using hrp
    match k with
    | 0 => rfl
    | j + 1 =>
      have hj : j < (Workload.encode e (LookupResult.encode e d.enc) workload).length := by
        simp only [Rep.encode, List.length_cons] at hk
        omega
      simp [Rep.encode, Rep.decode, List.take_succ_cons,
        workload_dec_take e _ _ _
          (fun lr hlr rest => lookupResult_dec_enc e d hd lr hlr rest)
          (fun lr hlr k hk => lookupResult_dec_take e d hd lr hlr k hk) workload hw j hj]
  | Unexpected req =>
    have hr : req.fits d.fits = true := by simpa [Rep.fits] using hrp
    match k with
    | 0 => rfl
    | j + 1 =>
      have hj : j < (Req.encode e d.enc req).length := by
        simp only [Rep.encode, List.length_cons] at hk
        omega
      simp [Rep.encode, Rep.decode, List.take_succ_cons, req_dec_take e d hd req hr j hj]

/-! ## Structured-text codec (`src/json.rs`)

The `rustc_serialize::json::Json` tree is embedded below.  A
`BTreeMap<String, Json>` object is modelled as a list of key/value entries in
the map's canonical (sorted, duplicate-free) key order; `jGet` is
`BTreeMap::get`.  The encoders therefore list their entries in sorted key
order, exactly as the map stores what the source inserts. -/

inductive Json
  | I64 (value : Int)
  | U64 (value : U64)
  | F64 (value : F64)
  | JString (value : PStr)
  | Boolean (value : Bool)
  | Array (items : List Json)
  | Object (entries : List (PStr × Json))
  | Null

/-- `BTreeMap::get`: the value stored at key `k`, if any. -/
def jGet (entries : List (PStr × Json)) (k : PStr) : Option Json :=
  match entries with
  | [] => none
  | (k', v) :: rest => if k' = k then some v else jGet rest k

/-- The string `"all"` as UTF-8 bytes. -/
def sAll : PStr := ⟨[97, 108, 108], by decide⟩

/-- The string `"best"` as UTF-8 bytes. -/
def sBest : PStr := ⟨[98, 101, 115, 116], by decide⟩

/-- The string `"best_or_mine"` as UTF-8 bytes. -/
def sBestOrMine : PStr := ⟨[98, 101, 115, 116, 95, 111, 114, 95, 109, 105, 110, 101], by decide⟩

/-- The string `"always"` as UTF-8 bytes. -/
def sAlways : PStr := ⟨[97, 108, 119, 97, 121, 115], by decide⟩

/-- The string `"server_choice"` as UTF-8 bytes. -/
def sServerChoice : PStr := ⟨[115, 101, 114, 118, 101, 114, 95, 99, 104, 111, 105, 99, 101], by decide⟩

/-- The string `"client_choice"` as UTF-8 bytes. -/
def sClientChoice : PStr := ⟨[99, 108, 105, 101, 110, 116, 95, 99, 104, 111, 105, 99, 101], by decide⟩

/-- The string `"none"` as UTF-8 bytes. -/
def sNone : PStr := ⟨[110, 111, 110, 101], by decide⟩

/-- The string `"init"` as UTF-8 bytes. -/
def sInit : PStr := ⟨[105, 110, 105, 116], by decide⟩

/-- The string `"terminate"` as UTF-8 bytes. -/
def sTerminate : PStr := ⟨[116, 101, 114, 109, 105, 110, 97, 116, 101], by decide⟩

/-- The string `"init_ack"` as UTF-8 bytes. -/
def sInitAck : PStr := ⟨[105, 110, 105, 116, 95, 97, 99, 107], by decide⟩

/-- The string `"terminate_ack"` as UTF-8 bytes. -/
def sTerminateAck : PStr := ⟨[116, 101, 114, 109, 105, 110, 97, 116, 101, 95, 97, 99, 107], by decide⟩

/-- The string `"too_busy"` as UTF-8 bytes. -/
def sTooBusy : PStr := ⟨[116, 111, 111, 95, 98, 117, 115, 121], by decide⟩

/-- The string `"want_crash"` as UTF-8 bytes. -/
def sWantCrash : PStr := ⟨[119, 97, 110, 116, 95, 99, 114, 97, 115, 104], by decide⟩

/-- The string `"lookup"` as UTF-8 bytes. -/
def sLookup : PStr := ⟨[108, 111, 111, 107, 117, 112], by decide⟩

/-- The string `"async"` as UTF-8 bytes. -/
def sAsync : PStr := ⟨[97, 115, 121, 110, 99], by decide⟩

/-- The string `"sync"` as UTF-8 bytes. -/
def sSync : PStr := ⟨[115, 121, 110, 99], by decide⟩

/-- The string `"cond"` as UTF-8 bytes. -/
def sCond : PStr := ⟨[99, 111, 110, 100], by decide⟩

/-- The string `"assign"` as UTF-8 bytes. -/
def sAssign : PStr := ⟨[97, 115, 115, 105, 103, 110], by decide⟩

/-- The string `"user_data"` as UTF-8 bytes. -/
def sUserData : PStr := ⟨[117, 115, 101, 114, 95, 100, 97, 116, 97], by decide⟩

/-- The string `"text"` as UTF-8 bytes. -/
def sText : PStr := ⟨[116, 101, 120, 116], by decide⟩

/-- The string `"result"` as UTF-8 bytes. -/
def sResult : PStr := ⟨[114, 101, 115, 117, 108, 116], by decide⟩

/-- The string `"post_action"` as UTF-8 bytes. -/
def sPostAction : PStr := ⟨[112, 111, 115, 116, 95, 97, 99, 116, 105, 111, 110], by decide⟩

/-- The string `"cluster_id"` as UTF-8 bytes. -/
def sClusterId : PStr := ⟨[99, 108, 117, 115, 116, 101, 114, 95, 105, 100], by decide⟩

/-- The string `"similarity"` as UTF-8 bytes. -/
def sSimilarity : PStr := ⟨[115, 105, 109, 105, 108, 97, 114, 105, 116, 121], by decide⟩

/-- The string `"best_sim_less_than"` as UTF-8 bytes. -/
def sBestSimLessThan : PStr := ⟨[98, 101, 115, 116, 95, 115, 105, 109, 95, 108, 101, 115, 115, 95, 116, 104, 97, 110], by decide⟩

/-- The string `"choice"` as UTF-8 bytes. -/
def sChoice : PStr := ⟨[99, 104, 111, 105, 99, 101], by decide⟩

/-- The string `"unexpected"` as UTF-8 bytes. -/
def sUnexpected : PStr := ⟨[117, 110, 101, 120, 112, 101, 99, 116, 101, 100], by decide⟩

/-- The string `"error"` as UTF-8 bytes. -/
def sError : PStr := ⟨[101, 114, 114, 111, 114], by decide⟩

/-- The string `"neighbours"` as UTF-8 bytes. -/
def sNeighbours : PStr := ⟨[110, 101, 105, 103, 104, 98, 111, 117, 114, 115], by decide⟩

/-- Text decode errors of `json.rs` (`JsonDecodeError`), carrying the
offending tree node (by value instead of by reference). -/
inductive JsonDecodeError
  | UnexpectedToken (json : Json)
  | MalformedObject (json : Json)

/-- Result of a text decode. -/
abbrev JRes (α : Type) := Except JsonDecodeError α

/-- `impl ToJson for LookupType`. -/
def LookupType.to_json : LookupType → Json
  | .All => .JString sAll
  | .Best => .JString sBest
  | .BestOrMine => .JString sBestOrMine

/-- `impl ToJson for AssignCond`. -/
def AssignCond.to_json : AssignCond → Json
  | .Always => .JString sAlways
  | .BestSimLessThan sim => .Object [(sBestSimLessThan, .F64 sim)]

/-- `impl ToJson for ClusterChoice`. -/
def ClusterChoice.to_json : ClusterChoice → Json
  | .ServerChoice => .JString sServerChoice
  | .ClientChoice cluster_id => .Object [(sClientChoice, .U64 cluster_id)]

/-- `impl ToJson for ClusterAssign` (keys in map order: `choice` < `cond`). -/
def ClusterAssign.to_json (ca : ClusterAssign) : Json :=
  .Object [(sChoice, ca.choice.to_json), (sCond, ca.cond.to_json)]

/-- `impl ToJson for InsertCond`. -/
def InsertCond.to_json : InsertCond → Json
  | .Always => .JString sAlways
  | .BestSimLessThan sim => .Object [(sBestSimLessThan, .F64 sim)]

/-- `impl ToJson for PostAction<UD>` (map order: `assign` < `cond` < `user_data`). -/
def PostAction.to_json (encU : UD → Json) : PostAction UD → Json
  | .None => .JString sNone
  | .InsertNew c a u =>
    .Object [(sAssign, a.to_json), (sCond, c.to_json), (sUserData, encU u)]

/-- `impl ToJson for LookupTask<UD>` (map order: `post_action` < `result` < `text`). -/
def LookupTask.to_json (encU : UD → Json) (t : LookupTask UD) : Json :=
  .Object [(sPostAction, t.post_action.to_json encU), (sResult, t.result.to_json),
    (sText, .JString t.text)]

/-- `impl ToJson for Workload<T>`: `Single` is the bare element, `Many` an array. -/
def Workload.to_json (encT : T → Json) : Workload T → Json
  | .Single value => encT value
  | .Many values => .Array (values.map encT)

/-- `impl ToJson for Req<UD>`. -/
def Req.to_json (encU : UD → Json) : Req UD → Json
  | .Init => .JString sInit
  | .Lookup workload => .Object [(sLookup, workload.to_json (LookupTask.to_json encU))]
  | .Terminate => .JString sTerminate

/-- `impl ToJson for Trans<UD>`. -/
def Trans.to_json (encU : UD → Json) : Trans UD → Json
  | .Async req => .Object [(sAsync, req.to_json encU)]
  | .Sync req => .Object [(sSync, req.to_json encU)]

/-- `impl ToJson for Match<UD>` (map order already sorted). -/
def Match.to_json (encU : UD → Json) (m : Match UD) : Json :=
  .Object [(sClusterId, .U64 m.cluster_id), (sSimilarity, .F64 m.similarity),
    (sUserData, encU m.user_data)]

/-- `impl ToJson for LookupResult<UD>`: `EmptySet` is `null`. -/
def LookupResult.to_json (encU : UD → Json) : LookupResult UD → Json
  | .EmptySet => .Null
  | .Best m => .Object [(sBest, m.to_json encU)]
  | .Neighbours neighbours =>
    .Object [(sNeighbours, neighbours.to_json (Match.to_json encU))]
  | .Error message => .Object [(sError, .JString message)]

/-- `impl ToJson for Rep<UD>`. -/
def Rep.to_json (encU : UD → Json) : Rep UD → Json
  | .InitAck => .JString sInitAck
  | .Result result => .Object [(sResult, result.to_json (LookupResult.to_json encU))]
  | .TerminateAck => .JString sTerminateAck
  | .Unexpected req => .Object [(sUnexpected, req.to_json encU)]
  | .TooBusy => .JString sTooBusy
  | .WantCrash => .JString sWantCrash

/-- `impl FromJson for String`: only a JSON string node decodes. -/
def PStr.from_json : Json → JRes PStr
  | .JString value => .ok value
  | j => .error (.UnexpectedToken j)

/-- `impl FromJson for LookupType`. -/
def LookupType.from_json : Json → JRes LookupType
  | .JString token =>
    if token = sAll then .ok .All
    else if token = sBest then .ok .Best
    else if token = sBestOrMine then .ok .BestOrMine
    else .error (.UnexpectedToken (.JString token))
  | j => .error (.UnexpectedToken j)

/-- `impl FromJson for InsertCond`. -/
def InsertCond.from_json : Json → JRes InsertCond
  | .JString token =>
    if token = sAlways then .ok .Always
    else .error (.UnexpectedToken (.JString token))
  | .Object obj =>
    match jGet obj sBestSimLessThan with
    | some (.F64 sim) => .ok (.BestSimLessThan sim)
    | _ => .error (.MalformedObject (.Object obj))
  | j => .error (.UnexpectedToken j)

/-- `impl FromJson for AssignCond`. -/
def AssignCond.from_json : Json → JRes AssignCond
  | .JString token =>
    if token = sAlways then .ok .Always
    else .error (.UnexpectedToken (.JString token))
  | .Object obj =>
    match jGet obj sBestSimLessThan with
    | some (.F64 sim) => .ok (.BestSimLessThan sim)
    | _ => .error (.MalformedObject (.Object obj))
  | j => .error (.UnexpectedToken j)

/-- `impl FromJson for ClusterChoice`: note that, unlike the other decoders,
a malformed object here reports `UnexpectedToken`, via the `decoded` option. -/
def ClusterChoice.from_json (j : Json) : JRes ClusterChoice :=
  let decoded : Option ClusterChoice :=
    match j with
    | .JString token => if token = sServerChoice then some .ServerChoice else none
    | .Object obj =>
      match jGet obj sClientChoice with
      | some (.U64 cluster_id) => some (.ClientChoice cluster_id)
      | _ => none
    | _ => none
  match decoded with
  | some value => .ok value
  | none => .error (.UnexpectedToken j)

/-- `impl FromJson for ClusterAssign`. -/
def ClusterAssign.from_json : Json → JRes ClusterAssign
  | .Object obj =>
    match jGet obj sCond, jGet obj sChoice with
    | some cond, some choice =>
      match AssignCond.from_json cond with
      | .error er => .error er
      | .ok c =>
        match ClusterChoice.from_json choice with
        | .error er => .error er
        | .ok ch => .ok ⟨c, ch⟩
    | _, _ => .error (.MalformedObject (.Object obj))
  | j => .error (.UnexpectedToken j)

/-- `impl FromJson for PostAction<UD>`. -/
def PostAction.from_json (decU : Json → JRes UD) : Json → JRes (PostAction UD)
  | .JString token =>
    if token = sNone then .ok .None
    else .error (.UnexpectedToken (.JString token))
  | .Object obj =>
    match jGet obj sCond, jGet obj sAssign, jGet obj sUserData with
    | some cond, some assign, some user_data =>
      match InsertCond.from_json cond with
      | .error er => .error er
      | .ok c =>
        match ClusterAssign.from_json assign with
        | .error er => .error er
        | .ok a =>
          match decU user_data with
          | .error er => .error er
          | .ok u => .ok (.InsertNew c a u)
    | _, _, _ => .error (.MalformedObject (.Object obj))
  | j => .error (.UnexpectedToken j)

/-- `impl FromJson for LookupTask<UD>`. -/
def LookupTask.from_json (decU : Json → JRes UD) : Json → JRes (LookupTask UD)
  | .Object obj =>
    match jGet obj sText, jGet obj sResult, jGet obj sPostAction with
    | some text, some result, some post_action =>
      match PStr.from_json text with
      | .error er => .error er
      | .ok tx =>
        match LookupType.from_json result with
        | .error er => .error er
        | .ok res =>
          match PostAction.from_json decU post_action with
          | .error er => .error er
          | .ok pa => .ok ⟨tx, res, pa⟩
    | _, _, _ => .error (.MalformedObject (.Object obj))
  | j => .error (.UnexpectedToken j)

/-- The `collect` over element decodes in `FromJson for Workload<T>`. -/
def Workload.from_json_items (decT : Json → JRes T) : List Json → JRes (List T)
  | [] => .ok []
  | j :: rest =>
    match decT j with
    | .error er => .error er
    | .ok value =>
      match Workload.from_json_items decT rest with
      | .error er => .error er
      | .ok values => .ok (value :: values)

/-- `impl FromJson for Workload<T>`: an array is `Many`, anything else `Single`. -/
def Workload.from_json (decT : Json → JRes T) : Json → JRes (Workload T)
  | .Array items =>
    match Workload.from_json_items decT items with
    | .error er => .error er
    | .ok values => .ok (.Many values)
  | j =>
    match decT j with
    | .error er => .error er
    | .ok value => .ok (.Single value)

/-- `impl FromJson for Req<UD>`. -/
def Req.from_json (decU : Json → JRes UD) : Json → JRes (Req UD)
  | .JString token =>
    if token = sInit then .ok .Init
    else if token = sTerminate then .ok .Terminate
    else .error (.UnexpectedToken (.JString token))
  | .Object obj =>
    match jGet obj sLookup with
    | some workload =>
      match Workload.from_json (LookupTask.from_json decU) workload with
      | .error er => .error er
      | .ok w => .ok (.Lookup w)
    | none => .error (.MalformedObject (.Object obj))
  | j => .error (.UnexpectedToken j)

/-- `impl FromJson for Trans<UD>`: exactly one of `async`/`sync` must be
present. -/
def Trans.from_json (decU : Json → JRes UD) : Json → JRes (Trans UD)
  | .Object obj =>
    match jGet obj sAsync, jGet obj sSync with
    | some req, none =>
      match Req.from_json decU req with
      | .error er => .error er
      | .ok r => .ok (.Async r)
    | none, some req =>
      match Req.from_json decU req with
      | .error er => .error er
      | .ok r => .ok (.Sync r)
    | _, _ => .error (.MalformedObject (.Object obj))
  | j => .error (.UnexpectedToken j)

/-- `impl FromJson for Match<UD>`: `cluster_id` must be a `U64` node and
`similarity` an `F64` node, otherwise the object is malformed. -/
def Match.from_json (decU : Json → JRes UD) : Json → JRes (Match UD)
  | .Object obj =>
    match jGet obj sClusterId, jGet obj sSimilarity, jGet obj sUserData with
    | some (.U64 cluster_id), some (.F64 similarity), some user_data =>
      match decU user_data with
      | .error er => .error er
      | .ok u => .ok ⟨cluster_id, similarity, u⟩
    | _, _, _ => .error (.MalformedObject (.Object obj))
  | j => .error (.UnexpectedToken j)

/-- `impl FromJson for LookupResult<UD>`: `null` is `EmptySet`; otherwise an
object with exactly one of `best`/`neighbours`/`error`. -/
def LookupResult.from_json (decU : Json → JRes UD) : Json → JRes (LookupResult UD)
  | .Null => .ok .EmptySet
  | .Object obj =>
    match jGet obj sBest, jGet obj sNeighbours, jGet obj sError with
    | some result, none, none =>
      match Match.from_json decU result with
      | .error er => .error er
      | .ok m => .ok (.Best m)
    | none, some workload, none =>
      match Workload.from_json (Match.from_json decU) workload with
      | .error er => .error er
      | .ok w => .ok (.Neighbours w)
    | none, none, some message =>
      match PStr.from_json message with
      | .error er => .error er
      | .ok s => .ok (.Error s)
    | _, _, _ => .error (.MalformedObject (.Object obj))
  | j => .error (.UnexpectedToken j)

/-- `impl FromJson for Rep<UD>`. -/
def Rep.from_json (decU : Json → JRes UD) : Json → JRes (Rep UD)
  | .JString token =>
    if token = sInitAck then .ok .InitAck
    else if token = sTerminateAck then .ok .TerminateAck
    else if token = sTooBusy then .ok .TooBusy
    else if token = sWantCrash then .ok .WantCrash
    else .error (.UnexpectedToken (.JString token))
  | .Object obj =>
    match jGet obj sResult, jGet obj sUnexpected with
    | some workload, none =>
      match Workload.from_json (LookupResult.from_json decU) workload with
      | .error er => .error er
      | .ok w => .ok (.Result w)
    | none, some req =>
      match Req.from_json decU req with
      | .error er => .error er
      | .ok r => .ok (.Unexpected r)
    | _, _ => .error (.MalformedObject (.Object obj))
  | j => .error (.UnexpectedToken j)

/-- A user-data text codec dictionary (`ToJson`/`FromJson` impls for `UD`). -/
structure JsonDict (UD : Type) where
  enc : UD → Json
  dec : Json → JRes UD

/-- The law of a well-behaved `ToJson`/`FromJson` pair: decode inverts encode. -/
structure JsonLaws (d : JsonDict UD) : Prop where
  dec_enc : ∀ u, d.dec (d.enc u) = .ok u

/-! ## Text codec round-trip lemmas -/

theorem lookupType_from_to (v : LookupType) :
    LookupType.from_json (LookupType.to_json v) = .ok v := by
  cases v <;> rfl

theorem insertCond_from_to (c : InsertCond) :
    InsertCond.from_json (InsertCond.to_json c) = .ok c := by
  cases c <;> rfl

theorem assignCond_from_to (c : AssignCond) :
    AssignCond.from_json (AssignCond.to_json c) = .ok c := by
  cases c <;> rfl

theorem clusterChoice_from_to (c : ClusterChoice) :
    ClusterChoice.from_json (ClusterChoice.to_json c) = .ok c := by
  cases c <;> rfl

theorem clusterAssign_from_to (ca : ClusterAssign) :
    ClusterAssign.from_json (ClusterAssign.to_json ca) = .ok ca := by
  simp [ClusterAssign.to_json, ClusterAssign.from_json, jGet,
    assignCond_from_to, clusterChoice_from_to, (by decide : sChoice ≠ sCond)]

theorem postAction_from_to (d : JsonDict UD) (hd : JsonLaws d) (pa : PostAction UD) :
    PostAction.from_json d.dec (PostAction.to_json d.enc pa) = .ok pa := by
  cases pa with
  | None => rfl
  | InsertNew c a u =>
    simp [PostAction.to_json, PostAction.from_json, jGet, insertCond_from_to,
      clusterAssign_from_to, hd.dec_enc, (by decide : sAssign ≠ sCond),
      (by decide : sAssign ≠ sUserData), (by decide : sCond ≠ sUserData)]

theorem lookupTask_from_to (d : JsonDict UD) (hd : JsonLaws d) (t : LookupTask UD) :
    LookupTask.from_json d.dec (LookupTask.to_json d.enc t) = .ok t := by
  simp [LookupTask.to_json, LookupTask.from_json, jGet, PStr.from_json,
    lookupType_from_to, postAction_from_to d hd, (by decide : sPostAction ≠ sText),
    (by decide : sResult ≠ sText), (by decide : sPostAction ≠ sResult)]

theorem workload_from_json_items_ok (decT : Json → JRes T) (encT : T → Json)
    (h : ∀ t, decT (encT t) = .ok t) :
    ∀ values : List T, Workload.from_json_items decT (values.map encT) = .ok values := by
  intro values
  induction values with
  | nil => rfl
  | cons v vs ih => simp [Workload.from_json_items, h v, ih]

theorem workload_from_json_not_array (decT : Json → JRes T) (j : Json)
    (hj : ∀ items, j ≠ .Array items) :
    Workload.from_json decT j =
      match decT j with
      | .error er => .error er
      | .ok value => .ok (.Single value) := by
  cases j <;> first
    | rfl
    | exact absurd rfl (hj _)

theorem workload_from_to (decT : Json → JRes T) (encT : T → Json)
    (h : ∀ t, decT (encT t) = .ok t)
    (hna : ∀ t items, encT t ≠ .Array items) (w : Workload T) :
    Workload.from_json decT (Workload.to_json encT w) = .ok w := by
  cases w with
  | Single value =>
    show Workload.from_json decT (encT value) = .ok (.Single value)
    rw [workload_from_json_not_array decT (encT value) (fun items => hna value items),
      h value]
  | Many values =>
    simp [Workload.to_json, Workload.from_json,
      workload_from_json_items_ok decT encT h values]

theorem match_from_to (d : JsonDict UD) (hd : JsonLaws d) (m : Match UD) :
    Match.from_json d.dec (Match.to_json d.enc m) = .ok m := by
  simp [Match.to_json, Match.from_json, jGet, hd.dec_enc,
    (by decide : sClusterId ≠ sSimilarity), (by decide : sClusterId ≠ sUserData),
    (by decide : sSimilarity ≠ sUserData)]

theorem lookupTask_to_json_ne_array (encU : UD → Json) (t : LookupTask UD)
    (items : List Json) : LookupTask.to_json encU t ≠ .Array items := by
  simp [LookupTask.to_json]

theorem match_to_json_ne_array (encU : UD → Json) (m : Match UD)
    (items : List Json) : Match.to_json encU m ≠ .Array items := by
  simp [Match.to_json]

theorem lookupResult_to_json_ne_array (encU : UD → Json) (lr : LookupResult UD)
    (items : List Json) : LookupResult.to_json encU lr ≠ .Array items := by
  cases lr <;> simp [LookupResult.to_json]

theorem req_from_to (d : JsonDict UD) (hd : JsonLaws d) (r : Req UD) :
    Req.from_json d.dec (Req.to_json d.enc r) = .ok r := by
  cases r with
  | Init => rfl
  | Terminate => rfl
  | Lookup workload =>
    simp [Req.to_json, Req.from_json, jGet,
      workload_from_to (LookupTask.from_json d.dec) (LookupTask.to_json d.enc)
        (lookupTask_from_to d hd) (lookupTask_to_json_ne_array d.enc) workload]

theorem trans_from_to (d : JsonDict UD) (hd : JsonLaws d) (t : Trans UD) :
    Trans.from_json d.dec (Trans.to_json d.enc t) = .ok t := by
  cases t with
  | Async req =>
    simp [Trans.to_json, Trans.from_json, jGet, req_from_to d hd,
      (by decide : sAsync ≠ sSync), (by decide : sSync ≠ sAsync)]
  | Sync req =>
    simp [Trans.to_json, Trans.from_json, jGet, req_from_to d hd,
      (by decide : sAsync ≠ sSync), (by decide : sSync ≠ sAsync)]

theorem lookupResult_from_to (d : JsonDict UD) (hd : JsonLaws d) (lr : LookupResult UD) :
    LookupResult.from_json d.dec (LookupResult.to_json d.enc lr) = .ok lr := by
  cases lr with
  | EmptySet => rfl
  | Best m =>
    simp [LookupResult.to_json, LookupResult.from_json, jGet, match_from_to d hd,
      (by decide : sBest ≠ sNeighbours), (by decide : sBest ≠ sError)]
  | Neighbours workload =>
    simp [LookupResult.to_json, LookupResult.from_json, jGet,
      (by decide : sNeighbours ≠ sBest), (by decide : sNeighbours ≠ sError),
      workload_from_to (Match.from_json d.dec) (Match.to_json d.enc)
        (match_from_to d hd) (match_to_json_ne_array d.enc) workload]
  | Error message =>
    simp [LookupResult.to_json, LookupResult.from_json, jGet, PStr.from_json,
      (by decide : sError ≠ sBest), (by decide : sError ≠ sNeighbours)]

theorem rep_from_to (d : JsonDict UD) (hd : JsonLaws d) (rp : Rep UD) :
    Rep.from_json d.dec (Rep.to_json d.enc rp) = .ok rp := by
  cases rp with
  | InitAck => rfl
  | TerminateAck => rfl
  | TooBusy => rfl
  | WantCrash => rfl
  | Result workload =>
    simp [Rep.to_json, Rep.from_json, jGet, (by decide : sResult ≠ sUnexpected),
      workload_from_to (LookupResult.from_json d.dec) (LookupResult.to_json d.enc)
        (lookupResult_from_to d hd) (lookupResult_to_json_ne_array d.enc) workload]
  | Unexpected req =>
    simp [Rep.to_json, Rep.from_json, jGet, req_from_to d hd,
      (by decide : sUnexpected ≠ sResult)]

/-! ## Concrete user-data dictionaries: `UD = String` and `UD = f64` -/

/-- The `ToBin`/`FromBin` dictionary of `String`. -/
def PStr.binDict (e : Endian) : BinDict PStr :=
  { enc := PStr.encode e, len := PStr.encode_len, dec := PStr.decode e, fits := PStr.fits }

theorem pstr_binLaws (e : Endian) : BinLaws (PStr.binDict e) where
  enc_length := pstr_enc_length e
  dec_enc := pstr_dec_enc e
  dec_take := pstr_dec_take e

/-- The `ToBin`/`FromBin` dictionary of `f64` (no length fields, always fits). -/
def F64.binDict (e : Endian) : BinDict F64 :=
  { enc := F64.encode e, len := F64.encode_len, dec := F64.decode e, fits := fun _ => true }

theorem f64_binLaws (e : Endian) : BinLaws (F64.binDict e) where
  enc_length := f64_enc_length e
  dec_enc := fun x _ rest => f64_dec_enc e x rest
  dec_take := fun x _ k hk => f64_dec_take e x k hk

/-- `rustc_serialize`'s `ToJson for String` paired with this crate's
`FromJson for String`. -/
def PStr.jsonDict : JsonDict PStr := { enc := Json.JString, dec := PStr.from_json }

theorem pstr_jsonLaws : JsonLaws PStr.jsonDict := ⟨fun _ => rfl⟩

/-- Modelled from the spec: `json.rs` defines no `FromJson` impl for `f64`
(only the `ToJson` side exists, via `rustc_serialize`'s `Json::F64`), so the
text decoder for a bare `f64` user-data node is missing from the crate.  The
spec's §4.3 tree maps a 64-bit float to the tree's float node, so the decoder
modelled here accepts exactly a `Json::F64` node, in the shape of the crate's
`FromJson for String`. -/
def F64.from_json : Json → JRes F64
  | .F64 value => .ok value
  | j => .error (.UnexpectedToken j)

/-- `rustc_serialize`'s `ToJson for f64`, paired with the spec-modelled
`F64.from_json`. -/
def F64.jsonDict : JsonDict F64 := { enc := Json.F64, dec := F64.from_json }

theorem f64_jsonLaws : JsonLaws F64.jsonDict := ⟨fun _ => rfl⟩

/-! ## Oversized values break the 32-bit length prefixes

`bin.rs` writes `values.len() as u32` (and string lengths likewise), so a
`Workload::Many` with `2 ^ 32` elements encodes a truncated count of `0`;
decoding then stops after zero elements.  The lemmas below support the
counterexamples built on such values. -/

theorem flatten_replicate_length (n : Nat) (l : Bytes) :
    ((List.replicate n l).flatten).length = n * l.length := by
  induction n with
  | zero => simp
  | succ n ih => simp [List.replicate_succ, ih, Nat.succ_mul, Nat.add_comm]

/-- A `Workload` with `2 ^ 32` elements, exceeding the 32-bit count prefix. -/
def hugeMany : Workload (LookupResult PStr) :=
  .Many (List.replicate (2 ^ 32) .EmptySet)

theorem hugeMany_encode :
    Workload.encode .little (LookupResult.encode .little (PStr.binDict .little).enc)
        hugeMany =
      2 :: (putBytes .little 4 (2 ^ 32) ++ (List.replicate (2 ^ 32) ([1] : Bytes)).flatten) := by
  show 2 :: (putBytes .little 4 (List.replicate (2 ^ 32)
      (LookupResult.EmptySet : LookupResult PStr)).length ++
      ((List.replicate (2 ^ 32) (LookupResult.EmptySet : LookupResult PStr)).map
        (LookupResult.encode .little (PStr.binDict .little).enc)).flatten) = _
  rw [List.map_replicate, List.length_replicate]
  rfl

/-- Decoding a `Many` whose 4-byte count field holds the truncated value
`2 ^ 32 % 2 ^ 32 = 0` stops after zero elements, leaving everything after the
count as the unconsumed suffix. -/
theorem workload_decode_trunc (decT : Bytes → DecRes T) (rest : Bytes) :
    Workload.decode .little decT
        (2 :: (putBytes .little 4 (2 ^ 32) ++ rest)) = .ok (.Many [], rest) := by
  have h0 : (2 : Nat) ^ 32 % 2 ^ (8 * 4) = 0 := by norm_num
  simp [Workload.decode, getW_putBytes, h0, Workload.decodeMany]

/-! ## Claim theorems -/

/-- C6: the claim states that every multi-byte field is written in a fixed
little-endian byte order so that the encoded bytes are identical on every
platform.  `bin.rs` instead reads and writes through `byteorder::NativeEndian`,
so the bytes depend on the host: the `u64` payload of
`ClusterChoice::ClientChoice(177)` encodes as `[2,177,0,...,0]` on a
little-endian host and `[2,0,...,0,177]` on a big-endian one.  This theorem
evaluates the embedded codec at that failing input, exhibiting the
divergence the spec's §9 itself flags as a defect to fix. -/
theorem claim_C6_native_endian_not_fixed :
    ClusterChoice.encode .little (.ClientChoice ⟨177, by norm_num⟩) =
        [2, 177, 0, 0, 0, 0, 0, 0, 0] ∧
    ClusterChoice.encode .big (.ClientChoice ⟨177, by norm_num⟩) =
        [2, 0, 0, 0, 0, 0, 0, 0, 177] ∧
    ClusterChoice.encode .little (.ClientChoice ⟨177, by norm_num⟩) ≠
      ClusterChoice.encode .big (.ClientChoice ⟨177, by norm_num⟩) := by
  refine ⟨by decide, by decide, by decide⟩

/-- C2: for every model value, `encode_len` equals the number of bytes
`encode` writes, for any user-data dictionary whose `encode_len` is likewise
consistent.  This holds with no size restriction: even when a length is
truncated by the `as u32` cast, the count of bytes written is unaffected. -/
theorem claim_C2_encode_len_consistent (UD : Type) (e : Endian) (d : BinDict UD)
    (hl : ∀ u, (d.enc u).length = d.len u) :
    (∀ s : PStr, (PStr.encode e s).length = s.encode_len) ∧
    (∀ x : U64, (U64.encode e x).length = x.encode_len) ∧
    (∀ x : F64, (F64.encode e x).length = x.encode_len) ∧
    (∀ v : LookupType, (LookupType.encode v).length = v.encode_len) ∧
    (∀ c : InsertCond, (InsertCond.encode e c).length = c.encode_len) ∧
    (∀ c : AssignCond, (AssignCond.encode e c).length = c.encode_len) ∧
    (∀ c : ClusterChoice, (ClusterChoice.encode e c).length = c.encode_len) ∧
    (∀ ca : ClusterAssign, (ClusterAssign.encode e ca).length = ca.encode_len) ∧
    (∀ pa : PostAction UD,
      (PostAction.encode e d.enc pa).length = pa.encode_len d.len) ∧
    (∀ t : LookupTask UD,
      (LookupTask.encode e d.enc t).length = t.encode_len d.len) ∧
    (∀ w : Workload (LookupTask UD),
      (Workload.encode e (LookupTask.encode e d.enc) w).length =
        w.encode_len (LookupTask.encode_len d.len)) ∧
    (∀ r : Req UD, (Req.encode e d.enc r).length = r.encode_len d.len) ∧
    (∀ t : Trans UD, (Trans.encode e d.enc t).length = t.encode_len d.len) ∧
    (∀ m : Match UD, (Match.encode e d.enc m).length = m.encode_len d.len) ∧
    (∀ w : Workload (Match UD),
      (Workload.encode e (Match.encode e d.enc) w).length =
        w.encode_len (Match.encode_len d.len)) ∧
    (∀ lr : LookupResult UD,
      (LookupResult.encode e d.enc lr).length = lr.encode_len d.len) ∧
    (∀ w : Workload (LookupResult UD),
      (Workload.encode e (LookupResult.encode e d.enc) w).length =
        w.encode_len (LookupResult.encode_len d.len)) ∧
    (∀ rp : Rep UD, (Rep.encode e d.enc rp).length = rp.encode_len d.len) := by
  refine ⟨pstr_enc_length e, u64_enc_length e, f64_enc_length e, lookupType_enc_length,
    insertCond_enc_length e, assignCond_enc_length e, clusterChoice_enc_length e,
    clusterAssign_enc_length e, postAction_enc_length e d hl, lookupTask_enc_length e d hl,
    workload_enc_length e _ _ (lookupTask_enc_length e d hl), req_enc_length e d hl,
    trans_enc_length e d hl, match_enc_length e d hl,
    workload_enc_length e _ _ (match_enc_length e d hl), lookupResult_enc_length e d hl,
    workload_enc_length e _ _ (lookupResult_enc_length e d hl), rep_enc_length e d hl⟩

/-- Witness for C2 at `UD = f64`, a concrete reply value. -/
theorem claim_C2_witness :
    (Rep.encode .little (F64.binDict .little).enc
        (.Result (.Single (.Best ⟨⟨177, by norm_num⟩, ⟨4602678819172646912, by norm_num⟩,
          (⟨4591870180066957722, by norm_num⟩ : F64)⟩)))).length =
      (Rep.Result (Workload.Single (LookupResult.Best
          (⟨⟨177, by norm_num⟩, ⟨4602678819172646912, by norm_num⟩,
            (⟨4591870180066957722, by norm_num⟩ : F64)⟩ : Match F64)))).encode_len
        (F64.binDict .little).len :=
  (claim_C2_encode_len_consistent F64 .little (F64.binDict .little)
    (f64_binLaws .little).enc_length).2.2.2.2.2.2.2.2.2.2.2.2.2.2.2.2.2
    (.Result (.Single (.Best ⟨⟨177, by norm_num⟩, ⟨4602678819172646912, by norm_num⟩,
      (⟨4591870180066957722, by norm_num⟩ : F64)⟩)))

/-- C5: for every tagged-union type, a buffer whose leading byte is not one of
the type's assigned tag values decodes to `InvalidTag` carrying that byte
exactly, whatever follows it — in particular a valid message whose leading
tag byte was mutated to an unused value. -/
theorem claim_C5_invalid_tag (UD T : Type) (e : Endian) (d : BinDict UD)
    (decT : Bytes → DecRes T) (tag : Nat) (rest : Bytes) (_ : tag < 256) :
    (tag ∉ ([1, 2] : List Nat) →
      Trans.decode e d.dec (tag :: rest) = .error (.InvalidTag tag)) ∧
    (tag ∉ ([1, 2, 3] : List Nat) →
      Req.decode e d.dec (tag :: rest) = .error (.InvalidTag tag)) ∧
    (tag ∉ ([1, 2] : List Nat) →
      Workload.decode e decT (tag :: rest) = .error (.InvalidTag tag)) ∧
    (tag ∉ ([1, 2, 3] : List Nat) →
      LookupType.decode (tag :: rest) = .error (.InvalidTag tag)) ∧
    (tag ∉ ([1, 2] : List Nat) →
      PostAction.decode e d.dec (tag :: rest) = .error (.InvalidTag tag)) ∧
    (tag ∉ ([1, 2] : List Nat) →
      InsertCond.decode e (tag :: rest) = .error (.InvalidTag tag)) ∧
    (tag ∉ ([1, 2] : List Nat) →
      AssignCond.decode e (tag :: rest) = .error (.InvalidTag tag)) ∧
    (tag ∉ ([1, 2] : List Nat) →
      ClusterChoice.decode e (tag :: rest) = .error (.InvalidTag tag)) ∧
    (tag ∉ ([1, 2, 3, 4, 5, 6] : List Nat) →
      Rep.decode e d.dec (tag :: rest) = .error (.InvalidTag tag)) ∧
    (tag ∉ ([1, 2, 3, 4] : List Nat) →
      LookupResult.decode e d.dec (tag :: rest) = .error (.InvalidTag tag)) := by
  refine ⟨fun h => ?_, fun h => ?_, fun h => ?_, fun h => ?_, fun h => ?_, fun h => ?_,
    fun h => ?_, fun h => ?_, fun h => ?_, fun h => ?_⟩ <;>
    · simp only [List.mem_cons, List.not_mem_nil, or_false, not_or] at h
      obtain ⟨h1, h⟩ := h
      first
        | (obtain ⟨h2, h3, h4, h5, h6⟩ := h
           simp [Trans.decode, Req.decode, Workload.decode, LookupType.decode,
             PostAction.decode, InsertCond.decode, AssignCond.decode,
             ClusterChoice.decode, Rep.decode, LookupResult.decode,
             h1, h2, h3, h4, h5, h6])
        | (obtain ⟨h2, h3, h4⟩ := h
           simp [Trans.decode, Req.decode, Workload.decode, LookupType.decode,
             PostAction.decode, InsertCond.decode, AssignCond.decode,
             ClusterChoice.decode, Rep.decode, LookupResult.decode,
             h1, h2, h3, h4])
        | (obtain ⟨h2, h3⟩ := h
           simp [Trans.decode, Req.decode, Workload.decode, LookupType.decode,
             PostAction.decode, InsertCond.decode, AssignCond.decode,
             ClusterChoice.decode, Rep.decode, LookupResult.decode,
             h1, h2, h3])
        | simp [Trans.decode, Req.decode, Workload.decode, LookupType.decode,
            PostAction.decode, InsertCond.decode, AssignCond.decode,
            ClusterChoice.decode, Rep.decode, LookupResult.decode, h1, h]

/-- Witness for C5: tag byte `0` is unused by `Trans` and decodes to
`InvalidTag 0`. -/
theorem claim_C5_witness :
    Trans.decode .little (PStr.binDict .little).dec [0, 7, 7] =
      .error (.InvalidTag 0) :=
  (claim_C5_invalid_tag PStr PStr .little (PStr.binDict .little)
    (PStr.decode .little) 0 [7, 7] (by decide)).1 (by decide)

/-- C1 (amended): binary round trip.  For every model value whose strings are
shorter than `2 ^ 32` bytes and whose `Many` sequences have fewer than
`2 ^ 32` elements (the `fits` predicates), and any law-abiding user-data
dictionary, decoding the bytes produced by `encode` returns the original
value with an empty remaining suffix.  The size bound is forced by the
`as u32` length casts: see the counterexample. -/
theorem claim_C1_binary_round_trip (UD : Type) (e : Endian) (d : BinDict UD)
    (hd : BinLaws d) :
    (∀ s : PStr, s.fits = true → PStr.decode e (PStr.encode e s) = .ok (s, [])) ∧
    (∀ x : U64, U64.decode e (U64.encode e x) = .ok (x, [])) ∧
    (∀ x : F64, F64.decode e (F64.encode e x) = .ok (x, [])) ∧
    (∀ v : LookupType, LookupType.decode (LookupType.encode v) = .ok (v, [])) ∧
    (∀ c : InsertCond, InsertCond.decode e (InsertCond.encode e c) = .ok (c, [])) ∧
    (∀ c : AssignCond, AssignCond.decode e (AssignCond.encode e c) = .ok (c, [])) ∧
    (∀ c : ClusterChoice,
      ClusterChoice.decode e (ClusterChoice.encode e c) = .ok (c, [])) ∧
    (∀ ca : ClusterAssign,
      ClusterAssign.decode e (ClusterAssign.encode e ca) = .ok (ca, [])) ∧
    (∀ pa : PostAction UD, pa.fits d.fits = true →
      PostAction.decode e d.dec (PostAction.encode e d.enc pa) = .ok (pa, [])) ∧
    (∀ t : LookupTask UD, t.fits d.fits = true →
      LookupTask.decode e d.dec (LookupTask.encode e d.enc t) = .ok (t, [])) ∧
    (∀ w : Workload (LookupTask UD), w.fits (LookupTask.fits d.fits) = true →
      Workload.decode e (LookupTask.decode e d.dec)
        (Workload.encode e (LookupTask.encode e d.enc) w) = .ok (w, [])) ∧
    (∀ r : Req UD, r.fits d.fits = true →
      Req.decode e d.dec (Req.encode e d.enc r) = .ok (r, [])) ∧
    (∀ t : Trans UD, t.fits d.fits = true →
      Trans.decode e d.dec (Trans.encode e d.enc t) = .ok (t, [])) ∧
    (∀ m : Match UD, m.fits d.fits = true →
      Match.decode e d.dec (Match.encode e d.enc m) = .ok (m, [])) ∧
    (∀ w : Workload (Match UD), w.fits (Match.fits d.fits) = true →
      Workload.decode e (Match.decode e d.dec)
        (Workload.encode e (Match.encode e d.enc) w) = .ok (w, [])) ∧
    (∀ lr : LookupResult UD, lr.fits d.fits = true →
      LookupResult.decode e d.dec (LookupResult.encode e d.enc lr) = .ok (lr, [])) ∧
    (∀ w : Workload (LookupResult UD), w.fits (LookupResult.fits d.fits) = true →
      Workload.decode e (LookupResult.decode e d.dec)
        (Workload.encode e (LookupResult.encode e d.enc) w) = .ok (w, [])) ∧
    (∀ rp : Rep UD, rp.fits d.fits = true →
      Rep.decode e d.dec (Rep.encode e d.enc rp) = .ok (rp, [])) := by
  refine ⟨fun s hs => by simpa using pstr_dec_enc e s hs [],
    fun x => by simpa using u64_dec_enc e x [],
    fun x => by simpa using f64_dec_enc e x [],
    fun v => by simpa using lookupType_dec_enc v [],
    fun c => by simpa using insertCond_dec_enc e c [],
    fun c => by simpa using assignCond_dec_enc e c [],
    fun c => by simpa using clusterChoice_dec_enc e c [],
    fun ca => by simpa using clusterAssign_dec_enc e ca [],
    fun pa hpa => by simpa using postAction_dec_enc e d hd pa hpa [],
    fun t ht => by simpa using lookupTask_dec_enc e d hd t ht [],
    fun w hw => by
      simpa using workload_dec_enc e _ _ _
        (fun t ht rest => lookupTask_dec_enc e d hd t ht rest) w hw [],
    fun r hr => by simpa using req_dec_enc e d hd r hr [],
    fun t ht => by simpa using trans_dec_enc e d hd t ht [],
    fun m hm => by simpa using match_dec_enc e d hd m hm [],
    fun w hw => by
      simpa using workload_dec_enc e _ _ _
        (fun m hm rest => match_dec_enc e d hd m hm rest) w hw [],
    fun lr hlr => by simpa using lookupResult_dec_enc e d hd lr hlr [],
    fun w hw => by
      simpa using workload_dec_enc e _ _ _
        (fun lr hlr rest => lookupResult_dec_enc e d hd lr hlr rest) w hw [],
    fun rp hrp => by simpa using rep_dec_enc e d hd rp hrp []⟩

/-- Witness for C1 at `UD = String`, a concrete request round-tripped. -/
theorem claim_C1_witness :
    Trans.decode .little (PStr.binDict .little).dec
        (Trans.encode .little (PStr.binDict .little).enc
          (.Sync (.Lookup (.Single ⟨sAll, .All, .None⟩)))) =
      .ok (.Sync (.Lookup (.Single ⟨sAll, .All, .None⟩)), []) :=
  (claim_C1_binary_round_trip PStr .little (PStr.binDict .little)
    (pstr_binLaws .little)).2.2.2.2.2.2.2.2.2.2.2.2.1
    (.Sync (.Lookup (.Single ⟨sAll, .All, .None⟩))) (by decide)

/-- Counterexample to C1 as stated: a `Workload::Many` with `2 ^ 32` elements
is a model value (and constructible in Rust on a 64-bit host), but its
element count is truncated to `0` by the `as u32` cast, so decoding its
encoding yields `Many []` with `2 ^ 32` leftover bytes instead of the value
with an empty suffix. -/
theorem claim_C1_counterexample :
    Workload.decode .little (LookupResult.decode .little (PStr.binDict .little).dec)
        (Workload.encode .little (LookupResult.encode .little (PStr.binDict .little).enc)
          hugeMany) ≠ .ok (hugeMany, []) := by
  rw [hugeMany_encode, workload_decode_trunc]
  intro h
  simp only [Except.ok.injEq, Prod.mk.injEq] at h
  have hlen := congrArg List.length h.2
  rw [flatten_replicate_length] at hlen
  norm_num at hlen

/-- C4 (amended): truncation.  For every model value within the 32-bit size
bounds (`fits`) and any law-abiding user-data dictionary, decoding any strict
prefix of the value's encoding (take `k` bytes for `k` below the full length)
fails with `UnexpectedEOF` — never another error, never a partial value.  The
size bound is forced by the `as u32` length casts: see the counterexample. -/
theorem claim_C4_truncation (UD : Type) (e : Endian) (d : BinDict UD)
    (hd : BinLaws d) :
    (∀ s : PStr, s.fits = true → ∀ k, k < (PStr.encode e s).length →
      PStr.decode e ((PStr.encode e s).take k) = .error .UnexpectedEOF) ∧
    (∀ x : U64, ∀ k, k < (U64.encode e x).length →
      U64.decode e ((U64.encode e x).take k) = .error .UnexpectedEOF) ∧
    (∀ x : F64, ∀ k, k < (F64.encode e x).length →
      F64.decode e ((F64.encode e x).take k) = .error .UnexpectedEOF) ∧
    (∀ v : LookupType, ∀ k, k < (LookupType.encode v).length →
      LookupType.decode ((LookupType.encode v).take k) = .error .UnexpectedEOF) ∧
    (∀ c : InsertCond, ∀ k, k < (InsertCond.encode e c).length →
      InsertCond.decode e ((InsertCond.encode e c).take k) = .error .UnexpectedEOF) ∧
    (∀ c : AssignCond, ∀ k, k < (AssignCond.encode e c).length →
      AssignCond.decode e ((AssignCond.encode e c).take k) = .error .UnexpectedEOF) ∧
    (∀ c : ClusterChoice, ∀ k, k < (ClusterChoice.encode e c).length →
      ClusterChoice.decode e ((ClusterChoice.encode e c).take k) =
        .error .UnexpectedEOF) ∧
    (∀ ca : ClusterAssign, ∀ k, k < (ClusterAssign.encode e ca).length →
      ClusterAssign.decode e ((ClusterAssign.encode e ca).take k) =
        .error .UnexpectedEOF) ∧
    (∀ pa : PostAction UD, pa.fits d.fits = true →
      ∀ k, k < (PostAction.encode e d.enc pa).length →
      PostAction.decode e d.dec ((PostAction.encode e d.enc pa).take k) =
        .error .UnexpectedEOF) ∧
    (∀ t : LookupTask UD, t.fits d.fits = true →
      ∀ k, k < (LookupTask.encode e d.enc t).length →
      LookupTask.decode e d.dec ((LookupTask.encode e d.enc t).take k) =
        .error .UnexpectedEOF) ∧
    (∀ w : Workload (LookupTask UD), w.fits (LookupTask.fits d.fits) = true →
      ∀ k, k < (Workload.encode e (LookupTask.encode e d.enc) w).length →
      Workload.decode e (LookupTask.decode e d.dec)
        ((Workload.encode e (LookupTask.encode e d.enc) w).take k) =
        .error .UnexpectedEOF) ∧
    (∀ r : Req UD, r.fits d.fits = true →
      ∀ k, k < (Req.encode e d.enc r).length →
      Req.decode e d.dec ((Req.encode e d.enc r).take k) = .error .UnexpectedEOF) ∧
    (∀ t : Trans UD, t.fits d.fits = true →
      ∀ k, k < (Trans.encode e d.enc t).length →
      Trans.decode e d.dec ((Trans.encode e d.enc t).take k) = .error .UnexpectedEOF) ∧
    (∀ m : Match UD, m.fits d.fits = true →
      ∀ k, k < (Match.encode e d.enc m).length →
      Match.decode e d.dec ((Match.encode e d.enc m).take k) = .error .UnexpectedEOF) ∧
    (∀ w : Workload (Match UD), w.fits (Match.fits d.fits) = true →
      ∀ k, k < (Workload.encode e (Match.encode e d.enc) w).length →
      Workload.decode e (Match.decode e d.dec)
        ((Workload.encode e (Match.encode e d.enc) w).take k) =
        .error .UnexpectedEOF) ∧
    (∀ lr : LookupResult UD, lr.fits d.fits = true →
      ∀ k, k < (LookupResult.encode e d.enc lr).length →
      LookupResult.decode e d.dec ((LookupResult.encode e d.enc lr).take k) =
        .error .UnexpectedEOF) ∧
    (∀ w : Workload (LookupResult UD), w.fits (LookupResult.fits d.fits) = true →
      ∀ k, k < (Workload.encode e (LookupResult.encode e d.enc) w).length →
      Workload.decode e (LookupResult.decode e d.dec)
        ((Workload.encode e (LookupResult.encode e d.enc) w).take k) =
        .error .UnexpectedEOF) ∧
    (∀ rp : Rep UD, rp.fits d.fits = true →
      ∀ k, k < (Rep.encode e d.enc rp).length →
      Rep.decode e d.dec ((Rep.encode e d.enc rp).take k) = .error .UnexpectedEOF) := by
  refine ⟨pstr_dec_take e, fun x _ => u64_dec_take e x _, fun x _ => f64_dec_take e x _,
    fun v _ => lookupType_dec_take v _, fun c _ => insertCond_dec_take e c _,
    fun c _ => assignCond_dec_take e c _, fun c _ => clusterChoice_dec_take e c _,
    fun ca _ => clusterAssign_dec_take e ca _, postAction_dec_take e d hd,
    lookupTask_dec_take e d hd,
    workload_dec_take e _ _ _ (fun t ht rest => lookupTask_dec_enc e d hd t ht rest)
      (fun t ht k hk => lookupTask_dec_take e d hd t ht k hk),
    req_dec_take e d hd, trans_dec_take e d hd, match_dec_take e d hd,
    workload_dec_take e _ _ _ (fun m hm rest => match_dec_enc e d hd m hm rest)
      (fun m hm k hk => match_dec_take e d hd m hm k hk),
    lookupResult_dec_take e d hd,
    workload_dec_take e _ _ _ (fun lr hlr rest => lookupResult_dec_enc e d hd lr hlr rest)
      (fun lr hlr k hk => lookupResult_dec_take e d hd lr hlr k hk),
    rep_dec_take e d hd⟩

/-- Witness for C4: a two-byte prefix of an 11-byte encoded request fails
with `UnexpectedEOF`. -/
theorem claim_C4_witness :
    Trans.decode .little (PStr.binDict .little).dec
        ((Trans.encode .little (PStr.binDict .little).enc
          (.Async (.Lookup (.Single ⟨sBest, .Best, .None⟩)))).take 2) =
      .error .UnexpectedEOF :=
  (claim_C4_truncation PStr .little (PStr.binDict .little)
    (pstr_binLaws .little)).2.2.2.2.2.2.2.2.2.2.2.2.1
    (.Async (.Lookup (.Single ⟨sBest, .Best, .None⟩))) (by decide) 2 (by decide)

/-- Counterexample to C4 as stated: for the oversized `hugeMany` value the
5-byte strict prefix of its encoding (tag, then the truncated zero count)
decodes successfully to `Many []` with nothing left over, instead of failing
with `UnexpectedEOF`. -/
theorem claim_C4_counterexample :
    5 < (Workload.encode .little
          (LookupResult.encode .little (PStr.binDict .little).enc) hugeMany).length ∧
    Workload.decode .little (LookupResult.decode .little (PStr.binDict .little).dec)
        ((Workload.encode .little
          (LookupResult.encode .little (PStr.binDict .little).enc) hugeMany).take 5) =
      .ok (.Many [], []) := by
  constructor
  · rw [hugeMany_encode, List.length_cons, List.length_append, putBytes_length,
      flatten_replicate_length, List.length_singleton]
    norm_num
  · have htake : (2 :: (putBytes .little 4 (2 ^ 32) ++
        (List.replicate (2 ^ 32) ([1] : Bytes)).flatten)).take 5 =
        2 :: (putBytes .little 4 (2 ^ 32) ++ []) := by
      rw [List.take_succ_cons,
        List.take_append_of_le_length (le_of_eq (putBytes_length ..).symm),
        List.take_of_length_le (le_of_eq (putBytes_length ..)), List.append_nil]
    rw [hugeMany_encode, htake, workload_decode_trunc]

/-- C7: stable tag numbering.  For every variant of every tagged-union type,
`encode` writes exactly the tag byte assigned by the wire grammar
(Trans: Async=1, Sync=2; Req: Init=1, Lookup=2, Terminate=3; Workload:
Single=1, Many=2; LookupType: All=1, Best=2, BestOrMine=3; PostAction:
None=1, InsertNew=2; InsertCond/AssignCond: Always=1, BestSimLessThan=2;
ClusterChoice: ServerChoice=1, ClientChoice=2; Rep: InitAck=1, Result=2,
TerminateAck=3, Unexpected=4, TooBusy=5, WantCrash=6; LookupResult:
EmptySet=1, Best=2, Neighbours=3, Error=4), and `decode` dispatches each such
byte back into the same variant's constructor. -/
theorem claim_C7_stable_tags (UD T : Type) (e : Endian) (d : BinDict UD)
    (encT : T → Bytes) (decT : Bytes → DecRes T) :
    (∀ r : Req UD, Trans.encode e d.enc (.Async r) = 1 :: Req.encode e d.enc r) ∧
    (∀ r : Req UD, Trans.encode e d.enc (.Sync r) = 2 :: Req.encode e d.enc r) ∧
    (Req.encode e d.enc .Init = [1]) ∧
    (∀ w : Workload (LookupTask UD),
      Req.encode e d.enc (.Lookup w) = 2 :: Workload.encode e (LookupTask.encode e d.enc) w) ∧
    (Req.encode e d.enc .Terminate = [3]) ∧
    (∀ v : T, Workload.encode e encT (.Single v) = 1 :: encT v) ∧
    (∀ vs : List T, Workload.encode e encT (.Many vs) =
      2 :: (putBytes e 4 vs.length ++ (vs.map encT).flatten)) ∧
    (LookupType.encode .All = [1]) ∧
    (LookupType.encode .Best = [2]) ∧
    (LookupType.encode .BestOrMine = [3]) ∧
    (PostAction.encode e d.enc .None = [1]) ∧
    (∀ (c : InsertCond) (a : ClusterAssign) (u : UD),
      PostAction.encode e d.enc (.InsertNew c a u) =
        2 :: (InsertCond.encode e c ++ ClusterAssign.encode e a ++ d.enc u)) ∧
    (InsertCond.encode e .Always = [1]) ∧
    (∀ sim : F64, InsertCond.encode e (.BestSimLessThan sim) = 2 :: putBytes e 8 sim.val) ∧
    (AssignCond.encode e .Always = [1]) ∧
    (∀ sim : F64, AssignCond.encode e (.BestSimLessThan sim) = 2 :: putBytes e 8 sim.val) ∧
    (ClusterChoice.encode e .ServerChoice = [1]) ∧
    (∀ cid : U64, ClusterChoice.encode e (.ClientChoice cid) = 2 :: putBytes e 8 cid.val) ∧
    (Rep.encode e d.enc .InitAck = [1]) ∧
    (∀ w : Workload (LookupResult UD), Rep.encode e d.enc (.Result w) =
      2 :: Workload.encode e (LookupResult.encode e d.enc) w) ∧
    (Rep.encode e d.enc .TerminateAck = [3]) ∧
    (∀ r : Req UD, Rep.encode e d.enc (.Unexpected r) = 4 :: Req.encode e d.enc r) ∧
    (Rep.encode e d.enc .TooBusy = [5]) ∧
    (Rep.encode e d.enc .WantCrash = [6]) ∧
    (LookupResult.encode e d.enc .EmptySet = [1]) ∧
    (∀ m : Match UD, LookupResult.encode e d.enc (.Best m) = 2 :: Match.encode e d.enc m) ∧
    (∀ w : Workload (Match UD), LookupResult.encode e d.enc (.Neighbours w) =
      3 :: Workload.encode e (Match.encode e d.enc) w) ∧
    (∀ er : PStr, LookupResult.encode e d.enc (.Error er) = 4 :: PStr.encode e er) ∧
    (∀ rest, Trans.decode e d.dec (1 :: rest) =
      match Req.decode e d.dec rest with
      | .error er => .error er
      | .ok (req, area) => .ok (.Async req, area)) ∧
    (∀ rest, Trans.decode e d.dec (2 :: rest) =
      match Req.decode e d.dec rest with
      | .error er => .error er
      | .ok (req, area) => .ok (.Sync req, area)) ∧
    (∀ rest, Req.decode e d.dec (1 :: rest) = .ok (.Init, rest)) ∧
    (∀ rest, Req.decode e d.dec (2 :: rest) =
      match Workload.decode e (LookupTask.decode e d.dec) rest with
      | .error er => .error er
      | .ok (workload, area) => .ok (.Lookup workload, area)) ∧
    (∀ rest, Req.decode e d.dec (3 :: rest) = .ok (.Terminate, rest)) ∧
    (∀ rest, Workload.decode e decT (1 :: rest) =
      match decT rest with
      | .error er => .error er
      | .ok (value, area) => .ok (.Single value, area)) ∧
    (∀ rest, Workload.decode e decT (2 :: rest) =
      match getW e 4 rest with
      | .error er => .error er
      | .ok (len, area) =>
        match Workload.decodeMany decT len area with
        | .error er => .error er
        | .ok (values, area) => .ok (.Many values, area)) ∧
    (∀ rest, LookupType.decode (1 :: rest) = .ok (.All, rest)) ∧
    (∀ rest, LookupType.decode (2 :: rest) = .ok (.Best, rest)) ∧
    (∀ rest, LookupType.decode (3 :: rest) = .ok (.BestOrMine, rest)) ∧
    (∀ rest, PostAction.decode e d.dec (1 :: rest) = .ok (.None, rest)) ∧
    (∀ rest, PostAction.decode e d.dec (2 :: rest) =
      match InsertCond.decode e rest with
      | .error er => .error er
      | .ok (cond, area) =>
        match ClusterAssign.decode e area with
        | .error er => .error er
        | .ok (assign, area) =>
          match d.dec area with
          | .error er => .error er
          | .ok (user_data, area) => .ok (.InsertNew cond assign user_data, area)) ∧
    (∀ rest, InsertCond.decode e (1 :: rest) = .ok (.Always, rest)) ∧
    (∀ rest, InsertCond.decode e (2 :: rest) =
      match F64.decode e rest with
      | .error er => .error er
      | .ok (sim, area) => .ok (.BestSimLessThan sim, area)) ∧
    (∀ rest, AssignCond.decode e (1 :: rest) = .ok (.Always, rest)) ∧
    (∀ rest, AssignCond.decode e (2 :: rest) =
      match F64.decode e rest with
      | .error er => .error er
      | .ok (sim, area) => .ok (.BestSimLessThan sim, area)) ∧
    (∀ rest, ClusterChoice.decode e (1 :: rest) = .ok (.ServerChoice, rest)) ∧
    (∀ rest, ClusterChoice.decode e (2 :: rest) =
      match U64.decode e rest with
      | .error er => .error er
      | .ok (cluster_id, area) => .ok (.ClientChoice cluster_id, area)) ∧
    (∀ rest, Rep.decode e d.dec (1 :: rest) = .ok (.InitAck, rest)) ∧
    (∀ rest, Rep.decode e d.dec (2 :: rest) =
      match Workload.decode e (LookupResult.decode e d.dec) rest with
      | .error er => .error er
      | .ok (workload, area) => .ok (.Result workload, area)) ∧
    (∀ rest, Rep.decode e d.dec (3 :: rest) = .ok (.TerminateAck, rest)) ∧
    (∀ rest, Rep.decode e d.dec (4 :: rest) =
      match Req.decode e d.dec rest with
      | .error er => .error er
      | .ok (req, area) => .ok (.Unexpected req, area)) ∧
    (∀ rest, Rep.decode e d.dec (5 :: rest) = .ok (.TooBusy, rest)) ∧
    (∀ rest, Rep.decode e d.dec (6 :: rest) = .ok (.WantCrash, rest)) ∧
    (∀ rest, LookupResult.decode e d.dec (1 :: rest) = .ok (.EmptySet, rest)) ∧
    (∀ rest, LookupResult.decode e d.dec (2 :: rest) =
      match Match.decode e d.dec rest with
      | .error er => .error er
      | .ok (m, area) => .ok (.Best m, area)) ∧
    (∀ rest, LookupResult.decode e d.dec (3 :: rest) =
      match Workload.decode e (Match.decode e d.dec) rest with
      | .error er => .error er
      | .ok (workload, area) => .ok (.Neighbours workload, area)) ∧
    (∀ rest, LookupResult.decode e d.dec (4 :: rest) =
      match PStr.decode e rest with
      | .error er => .error er
      | .ok (er, area) => .ok (.Error er, area)) :=
  ⟨fun _ => rfl, fun _ => rfl, rfl, fun _ => rfl, rfl, fun _ => rfl, fun _ => rfl,
    rfl, rfl, rfl, rfl, fun _ _ _ => rfl, rfl, fun _ => rfl, rfl, fun _ => rfl,
    rfl, fun _ => rfl, rfl, fun _ => rfl, rfl, fun _ => rfl, rfl, rfl, rfl,
    fun _ => rfl, fun _ => rfl, fun _ => rfl,
    fun _ => rfl, fun _ => rfl, fun _ => rfl, fun _ => rfl, fun _ => rfl,
    fun _ => rfl, fun _ => rfl, fun _ => rfl, fun _ => rfl, fun _ => rfl,
    fun _ => rfl, fun _ => rfl, fun _ => rfl,
    fun rest => by cases h : F64.decode e rest <;> simp [InsertCond.decode, h],
    fun _ => rfl,
    fun rest => by cases h : F64.decode e rest <;> simp [AssignCond.decode, h],
    fun _ => rfl,
    fun rest => by cases h : U64.decode e rest <;> simp [ClusterChoice.decode, h],
    fun _ => rfl, fun _ => rfl, fun _ => rfl, fun _ => rfl, fun _ => rfl,
    fun _ => rfl, fun _ => rfl, fun _ => rfl, fun _ => rfl, fun _ => rfl⟩

/-- C3: text round trip.  For every model value and any law-abiding user-data
text dictionary, `from_json` applied to the tree built by `to_json` returns
the original value; in particular `Workload::Single(x)` travels as the bare
encoding of `x`, `Workload::Many` as an array, and `LookupResult::EmptySet`
as the null node. -/
theorem claim_C3_text_round_trip (UD : Type) (d : JsonDict UD) (hd : JsonLaws d) :
    (∀ s : PStr, PStr.from_json (Json.JString s) = .ok s) ∧
    (∀ v : LookupType, LookupType.from_json v.to_json = .ok v) ∧
    (∀ c : InsertCond, InsertCond.from_json c.to_json = .ok c) ∧
    (∀ c : AssignCond, AssignCond.from_json c.to_json = .ok c) ∧
    (∀ c : ClusterChoice, ClusterChoice.from_json c.to_json = .ok c) ∧
    (∀ ca : ClusterAssign, ClusterAssign.from_json ca.to_json = .ok ca) ∧
    (∀ pa : PostAction UD,
      PostAction.from_json d.dec (pa.to_json d.enc) = .ok pa) ∧
    (∀ t : LookupTask UD,
      LookupTask.from_json d.dec (t.to_json d.enc) = .ok t) ∧
    (∀ w : Workload (LookupTask UD),
      Workload.from_json (LookupTask.from_json d.dec)
        (w.to_json (LookupTask.to_json d.enc)) = .ok w) ∧
    (∀ r : Req UD, Req.from_json d.dec (r.to_json d.enc) = .ok r) ∧
    (∀ t : Trans UD, Trans.from_json d.dec (t.to_json d.enc) = .ok t) ∧
    (∀ m : Match UD, Match.from_json d.dec (m.to_json d.enc) = .ok m) ∧
    (∀ w : Workload (Match UD),
      Workload.from_json (Match.from_json d.dec)
        (w.to_json (Match.to_json d.enc)) = .ok w) ∧
    (∀ lr : LookupResult UD,
      LookupResult.from_json d.dec (lr.to_json d.enc) = .ok lr) ∧
    (∀ w : Workload (LookupResult UD),
      Workload.from_json (LookupResult.from_json d.dec)
        (w.to_json (LookupResult.to_json d.enc)) = .ok w) ∧
    (∀ rp : Rep UD, Rep.from_json d.dec (rp.to_json d.enc) = .ok rp) ∧
    (∀ (T : Type) (encT : T → Json) (x : T),
      Workload.to_json encT (.Single x) = encT x) ∧
    (∀ (T : Type) (encT : T → Json) (xs : List T),
      Workload.to_json encT (.Many xs) = .Array (xs.map encT)) ∧
    (LookupResult.to_json d.enc .EmptySet = .Null) :=
  ⟨fun _ => rfl, lookupType_from_to, insertCond_from_to, assignCond_from_to,
    clusterChoice_from_to, clusterAssign_from_to, postAction_from_to d hd,
    lookupTask_from_to d hd,
    workload_from_to _ _ (lookupTask_from_to d hd) (lookupTask_to_json_ne_array d.enc),
    req_from_to d hd, trans_from_to d hd, match_from_to d hd,
    workload_from_to _ _ (match_from_to d hd) (match_to_json_ne_array d.enc),
    lookupResult_from_to d hd,
    workload_from_to _ _ (lookupResult_from_to d hd)
      (lookupResult_to_json_ne_array d.enc),
    rep_from_to d hd, fun _ _ _ => rfl, fun _ _ _ => rfl, rfl⟩

/-- Witness for C3 at `UD = String`: the spec's Example 1 message
round-trips through the text codec. -/
theorem claim_C3_witness :
    Trans.from_json PStr.jsonDict.dec
        (Trans.to_json PStr.jsonDict.enc
          (.Sync (.Lookup (.Single ⟨sBestOrMine, .All, .None⟩)))) =
      .ok (.Sync (.Lookup (.Single ⟨sBestOrMine, .All, .None⟩))) :=
  (claim_C3_text_round_trip PStr PStr.jsonDict pstr_jsonLaws).2.2.2.2.2.2.2.2.2.2.1
    (.Sync (.Lookup (.Single ⟨sBestOrMine, .All, .None⟩)))

/-- C8 (amended): generic payload independence.  With `UD = String` and
`UD = f64`, the binary round trip (within the 32-bit size bounds) and the
size/encode consistency hold for the top-level message types; the text round
trip holds for `UD = String` with the crate's own `FromJson for String`, and
for `UD = f64` with the spec-modelled `F64.from_json` (the crate supplies
only the `ToJson` side for `f64`). -/
theorem claim_C8_generic_payload (e : Endian) :
    (∀ t : Trans PStr, t.fits (PStr.binDict e).fits = true →
      Trans.decode e (PStr.binDict e).dec
        (Trans.encode e (PStr.binDict e).enc t) = .ok (t, [])) ∧
    (∀ rp : Rep PStr, rp.fits (PStr.binDict e).fits = true →
      Rep.decode e (PStr.binDict e).dec
        (Rep.encode e (PStr.binDict e).enc rp) = .ok (rp, [])) ∧
    (∀ t : Trans F64, t.fits (F64.binDict e).fits = true →
      Trans.decode e (F64.binDict e).dec
        (Trans.encode e (F64.binDict e).enc t) = .ok (t, [])) ∧
    (∀ rp : Rep F64, rp.fits (F64.binDict e).fits = true →
      Rep.decode e (F64.binDict e).dec
        (Rep.encode e (F64.binDict e).enc rp) = .ok (rp, [])) ∧
    (∀ t : Trans PStr, (Trans.encode e (PStr.binDict e).enc t).length =
      t.encode_len (PStr.binDict e).len) ∧
    (∀ rp : Rep PStr, (Rep.encode e (PStr.binDict e).enc rp).length =
      rp.encode_len (PStr.binDict e).len) ∧
    (∀ t : Trans F64, (Trans.encode e (F64.binDict e).enc t).length =
      t.encode_len (F64.binDict e).len) ∧
    (∀ rp : Rep F64, (Rep.encode e (F64.binDict e).enc rp).length =
      rp.encode_len (F64.binDict e).len) ∧
    (∀ t : Trans PStr,
      Trans.from_json PStr.jsonDict.dec (t.to_json PStr.jsonDict.enc) = .ok t) ∧
    (∀ rp : Rep PStr,
      Rep.from_json PStr.jsonDict.dec (rp.to_json PStr.jsonDict.enc) = .ok rp) ∧
    (∀ t : Trans F64,
      Trans.from_json F64.jsonDict.dec (t.to_json F64.jsonDict.enc) = .ok t) ∧
    (∀ rp : Rep F64,
      Rep.from_json F64.jsonDict.dec (rp.to_json F64.jsonDict.enc) = .ok rp) :=
  ⟨fun t ht => by simpa using trans_dec_enc e (PStr.binDict e) (pstr_binLaws e) t ht [],
    fun rp hrp => by simpa using rep_dec_enc e (PStr.binDict e) (pstr_binLaws e) rp hrp [],
    fun t ht => by simpa using trans_dec_enc e (F64.binDict e) (f64_binLaws e) t ht [],
    fun rp hrp => by simpa using rep_dec_enc e (F64.binDict e) (f64_binLaws e) rp hrp [],
    trans_enc_length e (PStr.binDict e) (pstr_binLaws e).enc_length,
    rep_enc_length e (PStr.binDict e) (pstr_binLaws e).enc_length,
    trans_enc_length e (F64.binDict e) (f64_binLaws e).enc_length,
    rep_enc_length e (F64.binDict e) (f64_binLaws e).enc_length,
    trans_from_to PStr.jsonDict pstr_jsonLaws,
    rep_from_to PStr.jsonDict pstr_jsonLaws,
    trans_from_to F64.jsonDict f64_jsonLaws,
    rep_from_to F64.jsonDict f64_jsonLaws⟩

/-- Witness for C8: a concrete `Rep<f64>` reply (the crate's `rep_f64` test
value) round-trips through the binary codec. -/
theorem claim_C8_witness :
    Rep.decode .little (F64.binDict .little).dec
        (Rep.encode .little (F64.binDict .little).enc
          (.Result (.Single (.Best ⟨⟨177, by norm_num⟩, ⟨4602678819172646912, by norm_num⟩,
            (⟨4591870180066957722, by norm_num⟩ : F64)⟩)))) =
      .ok (.Result (.Single (.Best ⟨⟨177, by norm_num⟩, ⟨4602678819172646912, by norm_num⟩,
        (⟨4591870180066957722, by norm_num⟩ : F64)⟩)), []) :=
  (claim_C8_generic_payload .little).2.2.2.1
    (.Result (.Single (.Best ⟨⟨177, by norm_num⟩, ⟨4602678819172646912, by norm_num⟩,
      (⟨4591870180066957722, by norm_num⟩ : F64)⟩))) (by decide)

/-- A `Rep<f64>` reply carrying `2 ^ 32` lookup results. -/
def hugeRep : Rep F64 := .Result (.Many (List.replicate (2 ^ 32) .EmptySet))

theorem hugeRep_encode :
    Rep.encode .little (F64.binDict .little).enc hugeRep =
      2 :: (2 :: (putBytes .little 4 (2 ^ 32) ++
        (List.replicate (2 ^ 32) ([1] : Bytes)).flatten)) := by
  show 2 :: (2 :: (putBytes .little 4 (List.replicate (2 ^ 32)
      (LookupResult.EmptySet : LookupResult F64)).length ++
      ((List.replicate (2 ^ 32) (LookupResult.EmptySet : LookupResult F64)).map
        (LookupResult.encode .little (F64.binDict .little).enc)).flatten)) = _
  rw [List.map_replicate, List.length_replicate]
  rfl

/-- Counterexample to C8 as stated: with `UD = f64` the binary round trip
fails on `hugeRep`, whose `2 ^ 32`-element batch count is truncated to `0` by
the `as u32` cast, so decode returns an empty batch and `2 ^ 32` leftover
bytes. -/
theorem claim_C8_counterexample :
    Rep.decode .little (F64.binDict .little).dec
        (Rep.encode .little (F64.binDict .little).enc hugeRep) ≠ .ok (hugeRep, []) := by
  have hdec : ∀ rest : Bytes, Rep.decode .little (F64.binDict .little).dec
      (2 :: (2 :: (putBytes .little 4 (2 ^ 32) ++ rest))) =
      .ok (.Result (.Many []), rest) := by
    intro rest
    have hw := workload_decode_trunc
      (LookupResult.decode .little (F64.binDict .little).dec) rest
    norm_num at hw
    simp [Rep.decode, hw]
  rw [hugeRep_encode, hdec]
  intro h
  simp only [Except.ok.injEq, Prod.mk.injEq] at h
  have hlen := congrArg List.length h.2
  rw [flatten_replicate_length] at hlen
  norm_num at hlen

/-- C9: `Trans` text decoding succeeds exactly on objects carrying exactly one
of the keys `async`/`sync` whose value decodes as a `Req`; every other input
fails, and an object with both keys or neither fails with
`MalformedObject` (carrying the offending node). -/
theorem claim_C9_trans_text_decode (UD : Type) (d : JsonDict UD) (j : Json) :
    ((∃ t : Trans UD, Trans.from_json d.dec j = .ok t) ↔
      (∃ (entries : List (PStr × Json)) (rj : Json) (r : Req UD),
        j = Json.Object entries ∧
        ((jGet entries sAsync = some rj ∧ jGet entries sSync = none) ∨
         (jGet entries sAsync = none ∧ jGet entries sSync = some rj)) ∧
        Req.from_json d.dec rj = .ok r)) ∧
    (∀ entries : List (PStr × Json), j = Json.Object entries →
      (((jGet entries sAsync).isSome ∧ (jGet entries sSync).isSome) ∨
       (jGet entries sAsync = none ∧ jGet entries sSync = none)) →
      Trans.from_json d.dec j = .error (.MalformedObject j)) := by
  constructor
  · constructor
    · rintro ⟨t, ht⟩
      cases j with
      | I64 v => simp [Trans.from_json] at ht
      | U64 v => simp [Trans.from_json] at ht
      | F64 v => simp [Trans.from_json] at ht
      | JString v => simp [Trans.from_json] at ht
      | Boolean v => simp [Trans.from_json] at ht
      | Array items => simp [Trans.from_json] at ht
      | Null => simp [Trans.from_json] at ht
      | Object entries =>
        cases h1 : jGet entries sAsync with
        | some rj =>
          cases h2 : jGet entries sSync with
          | none =>
            simp only [Trans.from_json, h1, h2] at ht
            cases hr : Req.from_json d.dec rj with
            | error er => rw [hr] at ht; exact absurd ht (by simp)
            | ok r => exact ⟨entries, rj, r, rfl, Or.inl ⟨h1, h2⟩, hr⟩
          | some rj2 =>
            simp only [Trans.from_json, h1, h2] at ht
            exact absurd ht (by simp)
        | none =>
          cases h2 : jGet entries sSync with
          | some rj =>
            simp only [Trans.from_json, h1, h2] at ht
            cases hr : Req.from_json d.dec rj with
            | error er => rw [hr] at ht; exact absurd ht (by simp)
            | ok r => exact ⟨entries, rj, r, rfl, Or.inr ⟨h1, h2⟩, hr⟩
          | none =>
            simp only [Trans.from_json, h1, h2] at ht
            exact absurd ht (by simp)
    · rintro ⟨entries, rj, r, rfl, hor, hr⟩
      rcases hor with ⟨h1, h2⟩ | ⟨h1, h2⟩
      · exact ⟨.Async r, by simp [Trans.from_json, h1, h2, hr]⟩
      · exact ⟨.Sync r, by simp [Trans.from_json, h1, h2, hr]⟩
  · rintro entries rfl hcase
    rcases hcase with ⟨hs1, hs2⟩ | ⟨h1, h2⟩
    · rw [Option.isSome_iff_exists] at hs1 hs2
      obtain ⟨a, ha⟩ := hs1
      obtain ⟨b, hb⟩ := hs2
      simp [Trans.from_json, ha, hb]
    · simp [Trans.from_json, h1, h2]

/-- Witness for C9: the empty object (neither key present) fails with
`MalformedObject`. -/
theorem claim_C9_witness :
    Trans.from_json PStr.jsonDict.dec (Json.Object []) =
      .error (.MalformedObject (Json.Object [])) :=
  (claim_C9_trans_text_decode PStr PStr.jsonDict (Json.Object [])).2 [] rfl
    (Or.inr ⟨rfl, rfl⟩)

/-- C10: the record-shaped text decoders (`LookupTask`, `Match`,
`PostAction::InsertNew`, `ClusterAssign`) succeed on any object whose required
keys are present with decodable values, whatever other keys the object also
carries — extra keys never cause `MalformedObject` — and consequently two
distinct objects can decode to structurally equal values. -/
theorem claim_C10_extra_keys_tolerated (UD : Type) (d : JsonDict UD) :
    (∀ (entries : List (PStr × Json)) (jt jr jp : Json) (t : LookupTask UD),
      jGet entries sText = some jt → jGet entries sResult = some jr →
      jGet entries sPostAction = some jp →
      PStr.from_json jt = .ok t.text → LookupType.from_json jr = .ok t.result →
      PostAction.from_json d.dec jp = .ok t.post_action →
      LookupTask.from_json d.dec (Json.Object entries) = .ok t) ∧
    (∀ (entries : List (PStr × Json)) (cid : U64) (sim : F64) (ju : Json) (u : UD),
      jGet entries sClusterId = some (.U64 cid) →
      jGet entries sSimilarity = some (.F64 sim) →
      jGet entries sUserData = some ju → d.dec ju = .ok u →
      Match.from_json d.dec (Json.Object entries) = .ok ⟨cid, sim, u⟩) ∧
    (∀ (entries : List (PStr × Json)) (jc ja ju : Json) (c : InsertCond)
        (a : ClusterAssign) (u : UD),
      jGet entries sCond = some jc → jGet entries sAssign = some ja →
      jGet entries sUserData = some ju →
      InsertCond.from_json jc = .ok c → ClusterAssign.from_json ja = .ok a →
      d.dec ju = .ok u →
      PostAction.from_json d.dec (Json.Object entries) = .ok (.InsertNew c a u)) ∧
    (∀ (entries : List (PStr × Json)) (jc jch : Json) (c : AssignCond)
        (ch : ClusterChoice),
      jGet entries sCond = some jc → jGet entries sChoice = some jch →
      AssignCond.from_json jc = .ok c → ClusterChoice.from_json jch = .ok ch →
      ClusterAssign.from_json (Json.Object entries) = .ok ⟨c, ch⟩) ∧
    (∃ j1 j2 : Json, j1 ≠ j2 ∧
      ClusterAssign.from_json j1 = ClusterAssign.from_json j2 ∧
      ∃ ca : ClusterAssign, ClusterAssign.from_json j1 = .ok ca) := by
  refine ⟨?_, ?_, ?_, ?_, ?_⟩
  · intro entries jt jr jp t h1 h2 h3 h4 h5 h6
    simp [LookupTask.from_json, h1, h2, h3, h4, h5, h6]
  · intro entries cid sim ju u h1 h2 h3 h4
    simp [Match.from_json, h1, h2, h3, h4]
  · intro entries jc ja ju c a u h1 h2 h3 h4 h5 h6
    simp [PostAction.from_json, h1, h2, h3, h4, h5, h6]
  · intro entries jc jch c ch h1 h2 h3 h4
    simp [ClusterAssign.from_json, h1, h2, h3, h4]
  · refine ⟨Json.Object [(sChoice, .JString sServerChoice), (sCond, .JString sAlways)],
      Json.Object [(sChoice, .JString sServerChoice), (sCond, .JString sAlways),
        (sText, .Null)], ?_, rfl, ⟨⟨.Always, .ServerChoice⟩, rfl⟩⟩
    simp [(by decide : sText ≠ sCond)]

/-- Witness for C10: `ClusterAssign` decodes from an object that also carries
an unrelated `text` key. -/
theorem claim_C10_witness :
    ClusterAssign.from_json (Json.Object
        [(sChoice, .JString sServerChoice), (sCond, .JString sAlways),
          (sText, .Null)]) =
      .ok ⟨.Always, .ServerChoice⟩ :=
  (claim_C10_extra_keys_tolerated PStr PStr.jsonDict).2.2.2.1
    [(sChoice, .JString sServerChoice), (sCond, .JString sAlways), (sText, .Null)]
    (.JString sAlways) (.JString sServerChoice) .Always .ServerChoice rfl rfl rfl rfl

end DuplProto
